import Mathlib

/-!
Shallow embedding of the PIVX masternode budget engine
(`src/masternode-budget.cpp`) and verification of its specification.

Machine integers (`int`, `int64_t`, `CAmount`) are modelled as `Int`;
heights and amounts in this module stay far from 64-bit overflow, and no
operation in the embedded code relies on wrap-around.  `uint256` hashes
are modelled as `Nat` (ordered as the source orders them).  C++ `/` and
`%` on `int` truncate toward zero, which is `Int.tdiv` / `Int.tmod`.

External collaborators (the chain, the masternode directory, clocks, the
wallet, consensus parameters) are passed in a record `Extern` of explicit
inputs, mirroring the interfaces the source calls.
-/

/-- C++ integer division (truncation toward zero). -/
def cppDiv (a b : Int) : Int := Int.tdiv a b

/-- C++ integer remainder (truncation toward zero). -/
def cppMod (a b : Int) : Int := Int.tmod a b

abbrev CAmount := Int

/-- One smallest-unit coin multiplier (COIN = 100,000,000). -/
def COIN : CAmount := 100000000

/-- Locking scripts, abstracted to the facts the budget code inspects:
whether a script is a normal payment script, whether it is unspendable,
whether it is pay-to-script-hash, and equality with the
`OP_RETURN OP_PUSH32 hash` collateral commitment script. -/
inductive CScript where
  | empty : CScript
  | normalPayment (n : Nat) : CScript
  | payToScriptHash (n : Nat) : CScript
  | opReturnPush (h : Nat) : CScript
  | unspendableOther (n : Nat) : CScript
  | otherScript (n : Nat) : CScript
deriving DecidableEq

/-- `CScript::IsNormalPaymentScript`. -/
def CScript.isNormalPaymentScript : CScript → Bool
  | .normalPayment _ => true
  | _ => false

/-- `CScript::IsUnspendable` (a script beginning with OP_RETURN). -/
def CScript.isUnspendable : CScript → Bool
  | .opReturnPush _ => true
  | .unspendableOther _ => true
  | _ => false

/-- `CScript::IsPayToScriptHash`. -/
def CScript.isPayToScriptHash : CScript → Bool
  | .payToScriptHash _ => true
  | _ => false

structure CTxOut where
  scriptPubKey : CScript
  nValue : CAmount
deriving DecidableEq

/-- A transaction, restricted to the fields the budget code reads. -/
structure CTransaction where
  vout : List CTxOut
  nLockTime : Nat
deriving DecidableEq

/-- Result of `GetTransaction` plus the block-index / active-chain lookup
for the containing block: the transaction, and, when its block is on the
active chain, that block's height and time. -/
structure TxLookup where
  tx : CTransaction
  blockOnChain : Option (Int × Int)
deriving DecidableEq

/-- The messaged failure modes of `IsBudgetCollateralValid`.  The two
silent failure paths (no outputs, nonzero locktime) set no message. -/
inductive CollErr where
  | txNotFound
  | invalidScript
  | opReturnNotFound
  | notEnoughConfs
deriving DecidableEq

/-- Outcome of `IsBudgetCollateralValid`: the boolean result together
with the final values of the by-reference arguments `strError` (`none`
when the call never wrote it), `nTime` and `nConf`. -/
structure CollateralResult where
  ok : Bool
  strError : Option CollErr
  nTime : Int
  nConf : Int
deriving DecidableEq

/-- Modelled from the spec: the proposal fee floor `PROPOSAL_FEE_TX`
(50 COIN, scenario S1); the constant lives in the missing header. -/
def PROPOSAL_FEE_TX : CAmount := 50 * COIN

/-- Modelled from the spec: the finalization fee floor `BUDGET_FEE_TX`
(the source comments on the 5 PIV finalization collateral); the constant
lives in the missing header. -/
def BUDGET_FEE_TX : CAmount := 5 * COIN

/-- The output loop of `IsBudgetCollateralValid`: walks `vout`, fails on
the first output that is neither a normal payment script nor
unspendable, and otherwise accumulates whether some output equals the
expected `OP_RETURN` commitment script with value at least the fee. -/
def collateralOutputScan (findScript : CScript) (fee : CAmount) :
    List CTxOut → Bool → Except CollErr Bool
  | [], found => .ok found
  | o :: rest, found =>
    if ¬ (o.scriptPubKey.isNormalPaymentScript || o.scriptPubKey.isUnspendable) then
      .error .invalidScript
    else
      collateralOutputScan findScript fee rest
        (found || (o.scriptPubKey == findScript && decide (o.nValue ≥ fee)))

/-- `IsBudgetCollateralValid`, over an explicit chain lookup.
`find` is the `GetTransaction` + block-index result for the collateral
txid, `ixConfs` the `GetIXConfirmations` result, `tipHeight` the active
chain height and `nRequiredConfs` the consensus
`nBudgetFeeConfirmations`.  `nTimeIn`/`nConfIn` are the incoming values
of the by-reference outputs. -/
def IsBudgetCollateralValid (find : Option TxLookup) (ixConfs tipHeight nRequiredConfs : Int)
    (nExpectedHash : Nat) (nTimeIn nConfIn : Int) (fBudgetFinalization : Bool) :
    CollateralResult :=
  match find with
  | none => ⟨false, some .txNotFound, nTimeIn, nConfIn⟩
  | some l =>
    if l.tx.vout.length < 1 then ⟨false, none, nTimeIn, nConfIn⟩
    else if l.tx.nLockTime ≠ 0 then ⟨false, none, nTimeIn, nConfIn⟩
    else
      let findScript : CScript := .opReturnPush nExpectedHash
      let fee : CAmount := if fBudgetFinalization then BUDGET_FEE_TX else PROPOSAL_FEE_TX
      match collateralOutputScan findScript fee l.tx.vout false with
      | .error e => ⟨false, some e, nTimeIn, nConfIn⟩
      | .ok false => ⟨false, some .opReturnNotFound, nTimeIn, nConfIn⟩
      | .ok true =>
        let conf : Int := ixConfs +
          (match l.blockOnChain with
           | some (bh, _) => tipHeight - bh + 1
           | none => 0)
        let nTime : Int :=
          match l.blockOnChain with
          | some (_, bt) => bt
          | none => nTimeIn
        if conf ≥ nRequiredConfs then ⟨true, none, nTime, conf⟩
        else ⟨false, some .notEnoughConfs, nTime, conf⟩

/-- One scheduled payment of a finalized budget (`CTxBudgetPayment`). -/
structure CTxBudgetPayment where
  nProposalHash : Nat
  payee : CScript
  nAmount : CAmount
deriving DecidableEq

/-- The external collaborators of the budget engine, passed explicitly:
consensus parameters, the masternode directory, the two clocks
(`GetTime` and `GetAdjustedTime`), the chain, and the wallet-facing
hash of a locally constructed finalized budget. -/
structure Extern where
  nBudgetCycleBlocks : Int
  nProposalEstablishmentTime : Int
  nBudgetFeeConfirmations : Int
  mnCountEnabled : Nat
  timeNow : Int
  adjustedTimeNow : Int
  tipHeight : Int
  findTx : Nat → Option TxLookup
  ixConfs : Nat → Int
  mnExists : Nat → Bool
  isTestnet : Bool
  posActive : Int → Bool
  zcV2Active : Int → Bool
  blockValue : Int → CAmount
  hashFB : Int → List CTxBudgetPayment → Nat

/-- `IsBudgetCollateralValid` wired to the external chain: looks the
collateral txid up through `Extern`. -/
def IsBudgetCollateralValidE (ext : Extern) (nTxCollateralHash nExpectedHash : Nat)
    (nTimeIn nConfIn : Int) (fBudgetFinalization : Bool) : CollateralResult :=
  IsBudgetCollateralValid (ext.findTx nTxCollateralHash) (ext.ixConfs nTxCollateralHash)
    ext.tipHeight ext.nBudgetFeeConfirmations nExpectedHash nTimeIn nConfIn fBudgetFinalization

/-- `CBudgetManager::GetTotalBudget`: the closed-form cycle budget. -/
def GetTotalBudget (ext : Extern) (nHeight : Int) : CAmount :=
  if ext.isTestnet then
    (cppDiv (500 * COIN) 100 * 10) * 146
  else
    let isPoSActive := ext.posActive nHeight
    let nSubsidy : CAmount :=
      if nHeight ≥ 151200 ∧ ¬ isPoSActive then 50 * COIN
      else if isPoSActive ∧ nHeight ≤ 302399 then 50 * COIN
      else if nHeight ≤ 345599 ∧ nHeight ≥ 302400 then 45 * COIN
      else if nHeight ≤ 388799 ∧ nHeight ≥ 345600 then 40 * COIN
      else if nHeight ≤ 431999 ∧ nHeight ≥ 388800 then 35 * COIN
      else if nHeight ≤ 475199 ∧ nHeight ≥ 432000 then 30 * COIN
      else if nHeight ≤ 518399 ∧ nHeight ≥ 475200 then 25 * COIN
      else if nHeight ≤ 561599 ∧ nHeight ≥ 518400 then 20 * COIN
      else if nHeight ≤ 604799 ∧ nHeight ≥ 561600 then 15 * COIN
      else if nHeight ≤ 647999 ∧ nHeight ≥ 604800 then 10 * COIN
      else if ext.zcV2Active nHeight then 10 * COIN
      else 5 * COIN
    if nHeight ≤ 172800 then 648000 * COIN
    else (cppDiv nSubsidy 100 * 10) * 1440 * 30

/-- Direction of a proposal vote (`VOTE_ABSTAIN`, `VOTE_YES`, `VOTE_NO`). -/
inductive VoteDirection where
  | voteAbstain
  | voteYes
  | voteNo
deriving DecidableEq

/-- A proposal vote (`CBudgetVote`), keyed by the hash of the voter's
masternode collateral outpoint (`vin.prevout.GetHash()`). -/
structure CBudgetVote where
  voterHash : Nat
  nProposalHash : Nat
  nVote : VoteDirection
  nTime : Int
  fValid : Bool
  fSynced : Bool
deriving DecidableEq

/-- A finalized-budget vote (`CFinalizedBudgetVote`). -/
structure CFinalizedBudgetVote where
  voterHash : Nat
  nBudgetHash : Nat
  nTime : Int
  fValid : Bool
  fSynced : Bool
deriving DecidableEq

/-- Key membership in an association list (a `std::map` count test). -/
def alCount (m : List (Nat × α)) (k : Nat) : Bool :=
  m.any (fun kv => kv.1 == k)

/-- Lookup in an association list (`std::map::operator[]` read side). -/
def alGet? (m : List (Nat × α)) (k : Nat) : Option α :=
  (m.find? (fun kv => kv.1 == k)).map (·.2)

/-- Key-ordered overwrite-or-insert (a `std::map` `operator[] =` write);
the ascending key order models the map's iteration order. -/
def alSet : List (Nat × α) → Nat → α → List (Nat × α)
  | [], k, v => [(k, v)]
  | (k', v') :: rest, k, v =>
    if k < k' then (k, v) :: (k', v') :: rest
    else if k = k' then (k, v) :: rest
    else (k', v') :: alSet rest k v

/-- Key-ordered insert that keeps an existing entry (`std::map::emplace`). -/
def alEmplace : List (Nat × α) → Nat → α → List (Nat × α)
  | [], k, v => [(k, v)]
  | (k', v') :: rest, k, v =>
    if k < k' then (k, v) :: (k', v') :: rest
    else if k = k' then (k', v') :: rest
    else (k', v') :: alEmplace rest k v

/-- A budget proposal, with the fields the budget engine reads and
writes.  `hash` stands for `GetHash()`, the serialization hash of the
immutable identity fields (name, URL, start, end, amount, address); no
mutation below touches it, mirroring that `GetHash` ignores `nTime`,
votes and validity state. -/
structure CBudgetProposal where
  nAlloted : CAmount
  fValid : Bool
  nBlockStart : Int
  nBlockEnd : Int
  address : CScript
  nAmount : CAmount
  nTime : Int
  nFeeTXHash : Nat
  hash : Nat
  mapVotes : List (Nat × CBudgetVote)
deriving DecidableEq

/-- `CBudgetProposal::GetVoteCount(vd)`: valid votes in one direction. -/
def CBudgetProposal.GetVoteCount (p : CBudgetProposal) (vd : VoteDirection) : Nat :=
  (p.mapVotes.filter (fun kv => kv.2.nVote == vd && kv.2.fValid)).length

/-- `GetYeas`. -/
def CBudgetProposal.GetYeas (p : CBudgetProposal) : Int :=
  (p.GetVoteCount .voteYes : Int)

/-- `GetNays`. -/
def CBudgetProposal.GetNays (p : CBudgetProposal) : Int :=
  (p.GetVoteCount .voteNo : Int)

/-- `CBudgetProposal::AddOrUpdateVote`.  `updateMin` is the
`BUDGET_VOTE_UPDATE_MIN` constant from the missing header (the spec's
`MIN_UPDATE_INTERVAL`); `timeNow` is `GetTime()`.  Returns the result
flag and the updated proposal. -/
def CBudgetProposal.AddOrUpdateVote (p : CBudgetProposal) (updateMin timeNow : Int)
    (vote : CBudgetVote) : Bool × CBudgetProposal :=
  let hash := vote.voterHash
  let voteTime := vote.nTime
  match alGet? p.mapVotes hash with
  | some oldVote =>
    if oldVote.nTime > voteTime then (false, p)
    else if voteTime - oldVote.nTime < updateMin then (false, p)
    else if voteTime > timeNow + 60 * 60 then (false, p)
    else (true, { p with mapVotes := alSet p.mapVotes hash vote })
  | none =>
    if voteTime > timeNow + 60 * 60 then (false, p)
    else (true, { p with mapVotes := alSet p.mapVotes hash vote })

/-- `CBudgetProposal::IsHeavilyDownvoted`. -/
def CBudgetProposal.IsHeavilyDownvoted (p : CBudgetProposal) (mnCount : Nat) : Bool :=
  p.GetNays - p.GetYeas > cppDiv (mnCount : Int) 10

/-- `CBudgetProposal::GetBlockStartCycle` and `GetBlockCycle`. -/
def CBudgetProposal.GetBlockStartCycle (p : CBudgetProposal) (cycle : Int) : Int :=
  p.nBlockStart - cppMod p.nBlockStart cycle

/-- `CBudgetProposal::GetBlockEndCycle` (returns `nBlockEnd` verbatim). -/
def CBudgetProposal.GetBlockEndCycle (p : CBudgetProposal) : Int :=
  p.nBlockEnd

/-- `CBudgetProposal::GetTotalPaymentCount`. -/
def CBudgetProposal.GetTotalPaymentCount (p : CBudgetProposal) (cycle : Int) : Int :=
  cppDiv (p.GetBlockEndCycle - p.GetBlockStartCycle cycle) cycle

/-- `CBudgetProposal::CheckStartEnd`. -/
def CBudgetProposal.CheckStartEnd (p : CBudgetProposal) (cycle : Int) : Bool :=
  if p.nBlockStart < 0 then false
  else if p.nBlockEnd < p.nBlockStart then false
  else if p.nBlockEnd ≠ p.nBlockStart + (cycle + 1) * p.GetTotalPaymentCount cycle then false
  else true

/-- `CBudgetProposal::CheckAmount`. -/
def CBudgetProposal.CheckAmount (p : CBudgetProposal) (nTotalBudget : CAmount) : Bool :=
  if p.nAmount < 10 * COIN then false
  else if p.nAmount > nTotalBudget then false
  else true

/-- `CBudgetProposal::CheckAddress`. -/
def CBudgetProposal.CheckAddress (p : CBudgetProposal) : Bool :=
  if p.address = CScript.empty then false
  else if p.address.isPayToScriptHash then false
  else true

/-- `CBudgetProposal::IsWellFormed`. -/
def CBudgetProposal.IsWellFormed (p : CBudgetProposal) (cycle : Int)
    (nTotalBudget : CAmount) : Bool :=
  p.CheckStartEnd cycle && p.CheckAmount nTotalBudget && p.CheckAddress

/-- `CBudgetProposal::IsExpired`. -/
def CBudgetProposal.IsExpired (p : CBudgetProposal) (nCurrentHeight : Int) : Bool :=
  p.nBlockEnd < nCurrentHeight

/-- `CBudgetProposal::IsEstablished`. -/
def CBudgetProposal.IsEstablished (ext : Extern) (p : CBudgetProposal) : Bool :=
  p.nTime < ext.adjustedTimeNow - ext.nProposalEstablishmentTime

/-- `CBudgetProposal::UpdateValid`.  Returns the proposal with `fValid`
(and possibly `nTime`, written by the collateral check) updated,
and the boolean result. -/
def CBudgetProposal.UpdateValid (ext : Extern) (p : CBudgetProposal) (nCurrentHeight : Int)
    (fCheckCollateral : Bool) : CBudgetProposal × Bool :=
  let p0 := { p with fValid := false }
  if p0.IsHeavilyDownvoted ext.mnCountEnabled then (p0, false)
  else if ¬ p0.IsWellFormed ext.nBudgetCycleBlocks (GetTotalBudget ext p0.nBlockStart) then
    (p0, false)
  else if p0.IsExpired nCurrentHeight then (p0, false)
  else if fCheckCollateral then
    let r := IsBudgetCollateralValidE ext p0.nFeeTXHash p0.hash p0.nTime 0 false
    let p1 := { p0 with nTime := r.nTime }
    if ¬ r.ok then (p1, false)
    else ({ p1 with fValid := true }, true)
  else ({ p0 with fValid := true }, true)

/-- `CBudgetProposal::IsPassing`. -/
def CBudgetProposal.IsPassing (ext : Extern) (p : CBudgetProposal)
    (nBlockStartBudget nBlockEndBudget : Int) (mnCount : Nat) : Bool :=
  if ¬ p.fValid then false
  else if p.nBlockStart > nBlockStartBudget then false
  else if p.nBlockEnd < nBlockEndBudget then false
  else if p.GetYeas - p.GetNays ≤ cppDiv (mnCount : Int) 10 then false
  else if ¬ p.IsEstablished ext then false
  else true

/-- `CBudgetProposal::CleanAndRemove`: re-derive every vote's validity
from the masternode directory. -/
def CBudgetProposal.CleanAndRemove (p : CBudgetProposal) (mnExists : Nat → Bool) :
    CBudgetProposal :=
  { p with mapVotes :=
      p.mapVotes.map (fun kv => (kv.1, { kv.2 with fValid := mnExists kv.2.voterHash })) }

/-- `CBudgetProposal::PtrHigherYes`: the sort comparator, descending net
yes count with greater fee-transaction hash as tiebreaker. -/
def CBudgetProposal.PtrHigherYes (a b : CBudgetProposal) : Bool :=
  let netYesA := a.GetYeas - a.GetNays
  let netYesB := b.GetYeas - b.GetNays
  if netYesA = netYesB then a.nFeeTXHash > b.nFeeTXHash
  else netYesA > netYesB

/-- Insert for the deterministic model of `std::sort`: place `p` before
the first element it compares greater than. -/
def insertBy (gt : α → α → Bool) (p : α) : List α → List α
  | [] => [p]
  | q :: rest => if gt p q then p :: q :: rest else q :: insertBy gt p rest

/-- Deterministic model of `std::sort` with comparator `gt`:
the result is ordered so no element compares greater than one before it. -/
def sortWith (gt : α → α → Bool) (l : List α) : List α :=
  l.foldr (insertBy gt) []

/-- The selection loop of `CBudgetManager::GetBudget`: walk the sorted
proposals, accept a passing proposal while the cycle budget is not
exhausted (setting its allotted amount), zero the allotted amount of a
passing proposal that no longer fits, and leave non-passing proposals
untouched.  Returns the accepted proposals in order, and the post-state
of every walked proposal in order. -/
def getBudgetLoop (ext : Extern) (nBlockStart nBlockEnd : Int) (nTotalBudget : CAmount)
    (mnCount : Nat) : List CBudgetProposal → CAmount →
    List CBudgetProposal × List CBudgetProposal
  | [], _ => ([], [])
  | p :: rest, nBudgetAllocated =>
    if p.IsPassing ext nBlockStart nBlockEnd mnCount then
      if p.nAmount + nBudgetAllocated ≤ nTotalBudget then
        let p' := { p with nAlloted := p.nAmount }
        let r := getBudgetLoop ext nBlockStart nBlockEnd nTotalBudget mnCount rest
          (nBudgetAllocated + p.nAmount)
        (p' :: r.1, p' :: r.2)
      else
        let p' := { p with nAlloted := 0 }
        let r := getBudgetLoop ext nBlockStart nBlockEnd nTotalBudget mnCount rest
          nBudgetAllocated
        (r.1, p' :: r.2)
    else
      let r := getBudgetLoop ext nBlockStart nBlockEnd nTotalBudget mnCount rest
        nBudgetAllocated
      (r.1, p :: r.2)

/-- `CBudgetManager::GetBudget` over the active proposal map and the
best height: clean votes against the masternode directory, sort by
`PtrHigherYes`, then run the greedy selection for the next cycle.
Returns the selected proposals in order, along with the post-state of
all proposals (the source mutates them in place through pointers). -/
def GetBudgetCore (ext : Extern) (nHeight : Int)
    (mapProposals : List (Nat × CBudgetProposal)) :
    List CBudgetProposal × List CBudgetProposal :=
  if nHeight ≤ 0 then ([], mapProposals.map (·.2))
  else
    let cleaned := mapProposals.map (fun kv => kv.2.CleanAndRemove ext.mnExists)
    let vBudgetPorposalsSort := sortWith CBudgetProposal.PtrHigherYes cleaned
    let nBlocksPerCycle := ext.nBudgetCycleBlocks
    let nBlockStart := nHeight - cppMod nHeight nBlocksPerCycle + nBlocksPerCycle
    let nBlockEnd := nBlockStart + nBlocksPerCycle - 1
    let nTotalBudget := GetTotalBudget ext nBlockStart
    getBudgetLoop ext nBlockStart nBlockEnd nTotalBudget ext.mnCountEnabled
      vBudgetPorposalsSort 0

/-- The claim-side description of `GetBudget`, written from the spec
sentence it is compared against: identical sort and greedy acceptance,
but every skipped proposal gets its allotted amount set to zero. -/
def claimGetBudgetLoop (ext : Extern) (nBlockStart nBlockEnd : Int)
    (nTotalBudget : CAmount) (mnCount : Nat) : List CBudgetProposal → CAmount →
    List CBudgetProposal × List CBudgetProposal
  | [], _ => ([], [])
  | p :: rest, nBudgetAllocated =>
    if p.IsPassing ext nBlockStart nBlockEnd mnCount
        && decide (p.nAmount + nBudgetAllocated ≤ nTotalBudget) then
      let p' := { p with nAlloted := p.nAmount }
      let r := claimGetBudgetLoop ext nBlockStart nBlockEnd nTotalBudget mnCount rest
        (nBudgetAllocated + p.nAmount)
      (p' :: r.1, p' :: r.2)
    else
      let p' := { p with nAlloted := 0 }
      let r := claimGetBudgetLoop ext nBlockStart nBlockEnd nTotalBudget mnCount rest
        nBudgetAllocated
      (r.1, p' :: r.2)

/-- The claim-side `GetBudget` (see `claimGetBudgetLoop`). -/
def claimGetBudget (ext : Extern) (nHeight : Int)
    (mapProposals : List (Nat × CBudgetProposal)) :
    List CBudgetProposal × List CBudgetProposal :=
  if nHeight ≤ 0 then ([], mapProposals.map (·.2))
  else
    let cleaned := mapProposals.map (fun kv => kv.2.CleanAndRemove ext.mnExists)
    let sorted := sortWith CBudgetProposal.PtrHigherYes cleaned
    let nBlocksPerCycle := ext.nBudgetCycleBlocks
    let nBlockStart := nHeight - cppMod nHeight nBlocksPerCycle + nBlocksPerCycle
    let nBlockEnd := nBlockStart + nBlocksPerCycle - 1
    let nTotalBudget := GetTotalBudget ext nBlockStart
    claimGetBudgetLoop ext nBlockStart nBlockEnd nTotalBudget ext.mnCountEnabled sorted 0

/-- Modelled from the spec: payments are resorted by descending hash in
auto-check; `CTxBudgetPayment::operator<` lives in the missing header. -/
def CTxBudgetPayment.gtByHash (a b : CTxBudgetPayment) : Bool :=
  a.nProposalHash > b.nProposalHash

/-- Modelled from the spec: auto-check resorts proposals by descending
hash; `CBudgetProposal::PtrGreater` lives in the missing header. -/
def CBudgetProposal.PtrGreater (a b : CBudgetProposal) : Bool :=
  a.hash > b.hash

/-- A finalized budget.  `hash` stands for `GetHash()`, the
serialization hash of name, start block and payments; no mutation below
touches those fields.  `mapPayment_History` is the mutable double-payment
guard. -/
structure CFinalizedBudget where
  fAutoChecked : Bool
  fValid : Bool
  strBudgetName : String
  nBlockStart : Int
  vecBudgetPayments : List CTxBudgetPayment
  nFeeTXHash : Nat
  nTime : Int
  hash : Nat
  mapVotes : List (Nat × CFinalizedBudgetVote)
  mapPayment_History : List (Nat × Int)
deriving DecidableEq

/-- Modelled from the spec: the vote count of a finalized budget is the
size of its vote map; the accessor lives in the missing header. -/
def CFinalizedBudget.GetVoteCount (fb : CFinalizedBudget) : Int :=
  (fb.mapVotes.length : Int)

/-- Modelled from the spec: the last payment block,
`nBlockStart + payments.size() - 1` (one payment per block of the
cycle); the accessor lives in the missing header, and the source
comments at `UpdateValid` that `GetBlockEnd() - nBlockStart > 100` and
`payments.size() > 100` check the same bound. -/
def CFinalizedBudget.GetBlockEnd (fb : CFinalizedBudget) : Int :=
  fb.nBlockStart + (fb.vecBudgetPayments.length : Int) - 1

/-- `CFinalizedBudget::GetTotalPayout`. -/
def CFinalizedBudget.GetTotalPayout (fb : CFinalizedBudget) : CAmount :=
  (fb.vecBudgetPayments.map (·.nAmount)).sum

/-- `CFinalizedBudget::AddOrUpdateVote` (same logic as the proposal
version). -/
def CFinalizedBudget.AddOrUpdateVote (fb : CFinalizedBudget) (updateMin timeNow : Int)
    (vote : CFinalizedBudgetVote) : Bool × CFinalizedBudget :=
  let hash := vote.voterHash
  let voteTime := vote.nTime
  match alGet? fb.mapVotes hash with
  | some oldVote =>
    if oldVote.nTime > voteTime then (false, fb)
    else if voteTime - oldVote.nTime < updateMin then (false, fb)
    else if voteTime > timeNow + 60 * 60 then (false, fb)
    else (true, { fb with mapVotes := alSet fb.mapVotes hash vote })
  | none =>
    if voteTime > timeNow + 60 * 60 then (false, fb)
    else (true, { fb with mapVotes := alSet fb.mapVotes hash vote })

/-- `CFinalizedBudget::CleanAndRemove`. -/
def CFinalizedBudget.CleanAndRemove (fb : CFinalizedBudget) (mnExists : Nat → Bool) :
    CFinalizedBudget :=
  { fb with mapVotes :=
      fb.mapVotes.map (fun kv => (kv.1, { kv.2 with fValid := mnExists kv.2.voterHash })) }

/-- The `CFinalizedBudget` copy constructor: copies votes, name, start,
payments, fee txid and time, but resets `fAutoChecked` to false and
`fValid` to true and leaves the payment history default-empty. -/
def CFinalizedBudget.copyConstruct (fb : CFinalizedBudget) : CFinalizedBudget :=
  { fAutoChecked := false
    fValid := true
    strBudgetName := fb.strBudgetName
    nBlockStart := fb.nBlockStart
    vecBudgetPayments := fb.vecBudgetPayments
    nFeeTXHash := fb.nFeeTXHash
    nTime := fb.nTime
    hash := fb.hash
    mapVotes := fb.mapVotes
    mapPayment_History := [] }

/-- `CFinalizedBudget::UpdateValid`. -/
def CFinalizedBudget.UpdateValid (ext : Extern) (fb : CFinalizedBudget)
    (nCurrentHeight : Int) (fCheckCollateral : Bool) : CFinalizedBudget × Bool :=
  let fb0 := { fb with fValid := false }
  let nBlocksPerCycle := ext.nBudgetCycleBlocks
  if cppMod fb0.nBlockStart nBlocksPerCycle ≠ 0 then (fb0, false)
  else if fb0.GetBlockEnd - fb0.nBlockStart > 100 then (fb0, false)
  else if (fb0.vecBudgetPayments.length : Int) > 100 then (fb0, false)
  else if fb0.strBudgetName = "" then (fb0, false)
  else if fb0.nBlockStart = 0 then (fb0, false)
  else if fb0.nFeeTXHash = 0 then (fb0, false)
  else if fb0.GetTotalPayout > GetTotalBudget ext fb0.nBlockStart then (fb0, false)
  else
    let afterColl :=
      if fCheckCollateral then
        let r := IsBudgetCollateralValidE ext fb0.nFeeTXHash fb0.hash fb0.nTime 0 true
        ({ fb0 with nTime := r.nTime }, r.ok)
      else (fb0, true)
    if ¬ afterColl.2 then (afterColl.1, false)
    else
      let fb1 := afterColl.1
      let nBlockStart2 := nCurrentHeight - cppMod nCurrentHeight nBlocksPerCycle
        + nBlocksPerCycle
      let nMaxAge := nBlockStart2 - 2 * nBlocksPerCycle
      if fb1.GetBlockEnd < nMaxAge then (fb1, false)
      else ({ fb1 with fValid := true }, true)

/-- The claim-side validity predicate for a finalized budget, written
from the claim sentence it is compared against: non-empty name, start a
non-zero multiple of the cycle length, at most 100 payments, payout
within the cycle budget, valid collateral, and not obsolete with
obsolescence measured as `block_end < current_cycle_start - 2 * C` where
`current_cycle_start = h - h mod C`. -/
def claimFinalBudgetValid (ext : Extern) (fb : CFinalizedBudget)
    (nCurrentHeight : Int) : Bool :=
  let c := ext.nBudgetCycleBlocks
  ¬ (fb.strBudgetName = "") && cppMod fb.nBlockStart c = 0 && ¬ (fb.nBlockStart = 0)
    && (fb.vecBudgetPayments.length : Int) ≤ 100
    && fb.GetTotalPayout ≤ GetTotalBudget ext fb.nBlockStart
    && (IsBudgetCollateralValidE ext fb.nFeeTXHash fb.hash fb.nTime 0 true).ok
    && ¬ (fb.GetBlockEnd < (nCurrentHeight - cppMod nCurrentHeight c) - 2 * c)

/-- The outcome of block-transaction validation. -/
inductive TrxValidationStatus where
  | InValid
  | Valid
  | DoublePayment
  | VoteThreshold
deriving DecidableEq

/-- `CFinalizedBudget::IsPaidAlready`: prune history entries recorded at
heights outside `[GetBlockStart, GetBlockEnd]`, then either report the
proposal as already paid or record it.  Returns the answer and the new
history. -/
def CFinalizedBudget.IsPaidAlready (fb : CFinalizedBudget) (nProposalHash : Nat)
    (nBlockHeight : Int) : Bool × List (Nat × Int) :=
  let pruned := fb.mapPayment_History.filter
    (fun kv => ¬ (kv.2 < fb.nBlockStart ∨ kv.2 > fb.GetBlockEnd))
  if alCount pruned nProposalHash then (true, pruned)
  else (false, alEmplace pruned nProposalHash nBlockHeight)

/-- `CFinalizedBudget::IsTransactionValid`: bound checks, the
double-payment guard, then a scan of the transaction outputs for the
expected script and amount.  Returns the status and the budget with its
(mutable) payment history updated. -/
def CFinalizedBudget.IsTransactionValid (fb : CFinalizedBudget) (txNew : CTransaction)
    (nBlockHeight : Int) : TrxValidationStatus × CFinalizedBudget :=
  if nBlockHeight > fb.GetBlockEnd then (.InValid, fb)
  else if nBlockHeight < fb.nBlockStart then (.InValid, fb)
  else
    let nCurrentBudgetPayment := nBlockHeight - fb.nBlockStart
    if nCurrentBudgetPayment > (fb.vecBudgetPayments.length : Int) - 1 then (.InValid, fb)
    else
      match fb.vecBudgetPayments.get? nCurrentBudgetPayment.toNat with
      | none => (.InValid, fb)
      | some payment =>
        let paid := fb.IsPaidAlready payment.nProposalHash nBlockHeight
        let fb' := { fb with mapPayment_History := paid.2 }
        if paid.1 then (.DoublePayment, fb')
        else
          if txNew.vout.reverse.any
              (fun out => payment.payee == out.scriptPubKey
                && payment.nAmount == out.nValue) then
            (.Valid, fb')
          else (.InValid, fb')

/-- `CFinalizedBudget::GetPayeeAndAmount`. -/
def CFinalizedBudget.GetPayeeAndAmount (fb : CFinalizedBudget) (nBlockHeight : Int) :
    Option (CScript × CAmount) :=
  let i := nBlockHeight - fb.nBlockStart
  if i < 0 then none
  else if i > (fb.vecBudgetPayments.length : Int) - 1 then none
  else (fb.vecBudgetPayments.get? i.toNat).map (fun p => (p.payee, p.nAmount))

/-- `CFinalizedBudget::CheckAndVote` (masternodes only).  `gate` is the
injected outcome of `rand() % 4 == 0`.  The network side effects of
`SubmitVote` are projected away; the triple returned is the updated
budget, whether the auto-check body ran (latching `fAutoChecked`), and
whether a yes vote was submitted. -/
def CFinalizedBudget.CheckAndVote (ext : Extern) (fMasterNode hasActiveMN gate : Bool)
    (strBudgetMode : String) (nBestHeight : Int)
    (mapProposals : List (Nat × CBudgetProposal)) (fb : CFinalizedBudget) :
    CFinalizedBudget × Bool × Bool :=
  if ¬ fMasterNode || fb.fAutoChecked then (fb, false, false)
  else if ¬ hasActiveMN then (fb, false, false)
  else if ¬ gate then (fb, false, false)
  else
    let fb1 := { fb with fAutoChecked := true }
    if strBudgetMode = "auto" then
      let vBudgetProposals := (GetBudgetCore ext nBestHeight mapProposals).1
      let propsByHash := sortWith CBudgetProposal.PtrGreater vBudgetProposals
      let paysByHash := sortWith CTxBudgetPayment.gtByHash fb.vecBudgetPayments
      if propsByHash.length = 0 then (fb1, true, false)
      else if propsByHash.length ≠ paysByHash.length then (fb1, true, false)
      else
        let allMatch := (paysByHash.zip propsByHash).all
          (fun pp => pp.1.nProposalHash == pp.2.hash
            && pp.1.payee == pp.2.address
            && pp.1.nAmount == pp.2.nAmount)
        (fb1, true, allMatch)
    else (fb1, true, false)

/-- A mutable transaction under construction (`CMutableTransaction`),
restricted to its outputs. -/
structure CMutableTransaction where
  vout : List CTxOut
deriving DecidableEq

/-- `std::vector::resize`: truncate or pad with default-constructed
outputs (empty script, zero value). -/
def resizeVout (l : List CTxOut) (n : Nat) : List CTxOut :=
  l.take n ++ List.replicate (n - l.length) ⟨CScript.empty, 0⟩

/-- The manager's state (`CBudgetManager`), restricted to the item maps,
immature queues, collateral-txid cache and heights that the verified
operations touch.  `nSubmittedHeight` models the function-static local
of `SubmitFinalBudget`. -/
structure CBudgetManager where
  mapProposals : List (Nat × CBudgetProposal)
  mapSeenProposals : List (Nat × CBudgetProposal)
  mapFinalizedBudgets : List (Nat × CFinalizedBudget)
  mapSeenFinalizedBudgets : List (Nat × CFinalizedBudget)
  vecImmatureProposals : List CBudgetProposal
  vecImmatureFinalizedBudgets : List CFinalizedBudget
  mapCollateralTxids : List (Nat × Nat)
  nBestHeight : Int
  nSubmittedHeight : Int
deriving DecidableEq

/-- The scanning loop of `CBudgetManager::GetBudgetWithHighestVoteCount`. -/
def gbhvcLoop (chainHeight : Int) : List (Nat × CFinalizedBudget) → Int →
    Option CFinalizedBudget → Option CFinalizedBudget
  | [], _, best => best
  | kv :: rest, highestVoteCount, best =>
    let fb := kv.2
    if fb.GetVoteCount > highestVoteCount ∧ chainHeight ≥ fb.nBlockStart
        ∧ chainHeight ≤ fb.GetBlockEnd then
      gbhvcLoop chainHeight rest fb.GetVoteCount (some fb)
    else
      gbhvcLoop chainHeight rest highestVoteCount best

/-- `CBudgetManager::GetBudgetWithHighestVoteCount`. -/
def CBudgetManager.GetBudgetWithHighestVoteCount (st : CBudgetManager)
    (chainHeight : Int) : Option CFinalizedBudget :=
  gbhvcLoop chainHeight st.mapFinalizedBudgets 0 none

/-- `CBudgetManager::GetHighestVoteCount`. -/
def CBudgetManager.GetHighestVoteCount (st : CBudgetManager) (chainHeight : Int) : Int :=
  match st.GetBudgetWithHighestVoteCount chainHeight with
  | some fb => fb.GetVoteCount
  | none => -1

/-- `CBudgetManager::GetPayeeAndAmount`. -/
def CBudgetManager.GetPayeeAndAmount (st : CBudgetManager) (chainHeight : Int) :
    Option (CScript × CAmount) :=
  (st.GetBudgetWithHighestVoteCount chainHeight).bind
    (fun fb => fb.GetPayeeAndAmount chainHeight)

/-- `CBudgetManager::IsBudgetPaymentBlock` with its two by-reference
outputs: the flag, `nHighestCount` and `nFivePercent`. -/
def CBudgetManager.IsBudgetPaymentBlockOut (ext : Extern) (st : CBudgetManager)
    (nBlockHeight : Int) : Bool × Int × Int :=
  let nHighestCount := st.GetHighestVoteCount nBlockHeight
  let nFivePercent := cppDiv (ext.mnCountEnabled : Int) 20
  (decide (nHighestCount > nFivePercent), nHighestCount, nFivePercent)

/-- `CBudgetManager::IsBudgetPaymentBlock`. -/
def CBudgetManager.IsBudgetPaymentBlock (ext : Extern) (st : CBudgetManager)
    (nBlockHeight : Int) : Bool :=
  (CBudgetManager.IsBudgetPaymentBlockOut ext st nBlockHeight).1

/-- The scanning loop of `CBudgetManager::IsTransactionValid`: check the
transaction against every finalized budget above the vote-count band
threshold, remembering whether any budget reached the band. -/
def itvLoop (txNew : CTransaction) (nBlockHeight nCountThreshold : Int) :
    List (Nat × CFinalizedBudget) → Bool → TrxValidationStatus
  | [], fThreshold => if fThreshold then .InValid else .VoteThreshold
  | kv :: rest, fThreshold =>
    if kv.2.GetVoteCount > nCountThreshold then
      if (kv.2.IsTransactionValid txNew nBlockHeight).1 = .Valid then .Valid
      else itvLoop txNew nBlockHeight nCountThreshold rest true
    else
      itvLoop txNew nBlockHeight nCountThreshold rest fThreshold

/-- `CBudgetManager::IsTransactionValid`. -/
def CBudgetManager.IsTransactionValid (ext : Extern) (st : CBudgetManager)
    (txNew : CTransaction) (nBlockHeight : Int) : TrxValidationStatus :=
  let t := CBudgetManager.IsBudgetPaymentBlockOut ext st nBlockHeight
  if ¬ t.1 then .InValid
  else itvLoop txNew nBlockHeight (t.2.1 - 2 * t.2.2) st.mapFinalizedBudgets false

/-- `CBudgetManager::FillBlockPayee`. -/
def CBudgetManager.FillBlockPayee (ext : Extern) (st : CBudgetManager)
    (txNew : CMutableTransaction) (fProofOfStake : Bool) : CMutableTransaction :=
  let chainHeight := st.nBestHeight
  if chainHeight ≤ 0 then txNew
  else
    match st.GetPayeeAndAmount (chainHeight + 1) with
    | none => txNew
    | some (payee, nAmount) =>
      if fProofOfStake then
        { vout := txNew.vout ++ [⟨payee, nAmount⟩] }
      else
        let blockValue := ext.blockValue (chainHeight + 1)
        let v0 := match txNew.vout with
          | [] => []
          | o :: rest => { o with nValue := blockValue } :: rest
        { vout := (resizeVout v0 2).set 1 ⟨payee, nAmount⟩ }

/-- `CBudgetManager::AddSeenProposal`. -/
def CBudgetManager.AddSeenProposal (st : CBudgetManager) (prop : CBudgetProposal) :
    CBudgetManager :=
  { st with mapSeenProposals := alEmplace st.mapSeenProposals prop.hash prop }

/-- `CBudgetManager::AddSeenFinalizedBudget`. -/
def CBudgetManager.AddSeenFinalizedBudget (st : CBudgetManager)
    (bud : CFinalizedBudget) : CBudgetManager :=
  { st with mapSeenFinalizedBudgets := alEmplace st.mapSeenFinalizedBudgets bud.hash bud }

/-- `CBudgetManager::AddProposal`: revalidate, refuse duplicates, insert
into the active map. -/
def CBudgetManager.AddProposal (ext : Extern) (st : CBudgetManager)
    (budgetProposal : CBudgetProposal) : CBudgetManager × Bool :=
  let u := budgetProposal.UpdateValid ext st.nBestHeight true
  if ¬ u.2 then (st, false)
  else if alCount st.mapProposals u.1.hash then (st, false)
  else ({ st with mapProposals := alEmplace st.mapProposals u.1.hash u.1 }, true)

/-- `CBudgetManager::AddFinalizedBudget`: refuse duplicates, revalidate,
insert into the active map (the emplace runs the copy constructor). -/
def CBudgetManager.AddFinalizedBudget (ext : Extern) (st : CBudgetManager)
    (finalizedBudget : CFinalizedBudget) : CBudgetManager × Bool :=
  if alCount st.mapFinalizedBudgets finalizedBudget.hash then (st, false)
  else
    let u := finalizedBudget.UpdateValid ext st.nBestHeight true
    if ¬ u.2 then (st, false)
    else
      ({ st with mapFinalizedBudgets :=
          alEmplace st.mapFinalizedBudgets u.1.hash u.1.copyConstruct }, true)

/-- The `BUDGETPROPOSAL` (`mprop`) branch of
`CBudgetManager::ProcessMessage`, with network effects (relay, sync
bookkeeping, orphan-vote reconciliation) projected away. -/
def CBudgetManager.ProcessMessageBudgetProposal (ext : Extern) (st : CBudgetManager)
    (budgetProposalBroadcast : CBudgetProposal) : CBudgetManager :=
  if alCount st.mapSeenProposals budgetProposalBroadcast.hash then st
  else
    let r := IsBudgetCollateralValidE ext budgetProposalBroadcast.nFeeTXHash
      budgetProposalBroadcast.hash budgetProposalBroadcast.nTime 0 false
    let prop1 := { budgetProposalBroadcast with nTime := r.nTime }
    if ¬ r.ok then
      if r.nConf ≥ 1 then
        { st with vecImmatureProposals := st.vecImmatureProposals ++ [prop1] }
      else st
    else
      let st1 := st.AddSeenProposal prop1
      let u := prop1.UpdateValid ext st1.nBestHeight true
      if ¬ u.2 then st1
      else (st1.AddProposal ext u.1).1

/-- The `FINALBUDGET` (`fbs`) branch of `CBudgetManager::ProcessMessage`,
with network effects projected away. -/
def CBudgetManager.ProcessMessageFinalizedBudget (ext : Extern) (st : CBudgetManager)
    (finalizedBudgetBroadcast : CFinalizedBudget) : CBudgetManager :=
  if alCount st.mapSeenFinalizedBudgets finalizedBudgetBroadcast.hash then st
  else
    let r := IsBudgetCollateralValidE ext finalizedBudgetBroadcast.nFeeTXHash
      finalizedBudgetBroadcast.hash finalizedBudgetBroadcast.nTime 0 true
    let fb1 := { finalizedBudgetBroadcast with nTime := r.nTime }
    if ¬ r.ok then
      if r.nConf ≥ 1 then
        { st with vecImmatureFinalizedBudgets := st.vecImmatureFinalizedBudgets ++ [fb1] }
      else st
    else
      let st1 := st.AddSeenFinalizedBudget fb1
      let u := fb1.UpdateValid ext st1.nBestHeight true
      if ¬ u.2 then st1
      else (st1.AddFinalizedBudget ext u.1).1

/-- The finalized-budget phase of `CBudgetManager::CheckAndRemove`:
revalidate each budget, drop the invalid ones, run `CheckAndVote` on the
valid ones, and rebuild the map from copies (running the copy
constructor).  `gates` injects the per-call `rand() % 4 == 0` outcomes;
the second result lists the hashes whose auto-check body ran. -/
def checkAndRemoveBudgetsLoop (ext : Extern) (fMasterNode hasActiveMN : Bool)
    (gates : Nat → Bool) (strBudgetMode : String) (nBestHeight : Int)
    (mapProposals : List (Nat × CBudgetProposal)) :
    List (Nat × CFinalizedBudget) → Nat → List (Nat × CFinalizedBudget) × List Nat
  | [], _ => ([], [])
  | (k, fb) :: rest, i =>
    let u := fb.UpdateValid ext nBestHeight true
    if ¬ u.2 then
      checkAndRemoveBudgetsLoop ext fMasterNode hasActiveMN gates strBudgetMode
        nBestHeight mapProposals rest (i + 1)
    else
      let cv := u.1.CheckAndVote ext fMasterNode hasActiveMN (gates i) strBudgetMode
        nBestHeight mapProposals
      let r := checkAndRemoveBudgetsLoop ext fMasterNode hasActiveMN gates strBudgetMode
        nBestHeight mapProposals rest (i + 1)
      ((k, cv.1.copyConstruct) :: r.1, (if cv.2.1 then [k] else []) ++ r.2)

/-- The proposal phase of `CBudgetManager::CheckAndRemove`: revalidate
and keep only the valid proposals.  (The source rebuilds the map from
copies; the proposal copy constructor leaves `nAlloted` uninitialized,
which the model keeps unchanged.) -/
def checkAndRemoveProposalsLoop (ext : Extern) (nBestHeight : Int) :
    List (Nat × CBudgetProposal) → List (Nat × CBudgetProposal)
  | [] => []
  | (k, p) :: rest =>
    let u := p.UpdateValid ext nBestHeight true
    if ¬ u.2 then checkAndRemoveProposalsLoop ext nBestHeight rest
    else (k, u.1) :: checkAndRemoveProposalsLoop ext nBestHeight rest

/-- `CBudgetManager::CheckAndRemove`.  Returns the new state and the
hashes of finalized budgets whose auto-check body ran this tick. -/
def CBudgetManager.CheckAndRemove (ext : Extern) (st : CBudgetManager)
    (fMasterNode hasActiveMN : Bool) (gates : Nat → Bool) (strBudgetMode : String) :
    CBudgetManager × List Nat :=
  let b := checkAndRemoveBudgetsLoop ext fMasterNode hasActiveMN gates strBudgetMode
    st.nBestHeight st.mapProposals st.mapFinalizedBudgets 0
  let p := checkAndRemoveProposalsLoop ext st.nBestHeight st.mapProposals
  ({ st with mapFinalizedBudgets := b.1, mapProposals := p }, b.2)

/-- Modelled from the spec: `ClearSeen` (missing header) clears the seen
sets to force a re-broadcast round. -/
def CBudgetManager.ClearSeen (st : CBudgetManager) : CBudgetManager :=
  { st with mapSeenProposals := [], mapSeenFinalizedBudgets := [] }

/-- The tail of `CBudgetManager::SubmitFinalBudget` after the collateral
txid is known: check the collateral, validate the constructed budget,
then insert it into seen and active sets. -/
def submitFinalBudgetTail (ext : Extern) (st : CBudgetManager) (txidCollateral : Nat)
    (nCurrentHeight nBlockStart : Int) (vecTxBudgetPayments : List CTxBudgetPayment)
    (budgetHash : Nat) : CBudgetManager :=
  let fb : CFinalizedBudget :=
    { fAutoChecked := false
      fValid := true
      strBudgetName := "main"
      nBlockStart := nBlockStart
      vecBudgetPayments := vecTxBudgetPayments
      nFeeTXHash := txidCollateral
      nTime := 0
      hash := budgetHash
      mapVotes := []
      mapPayment_History := [] }
  let r := IsBudgetCollateralValidE ext txidCollateral fb.hash 0 0 true
  if ¬ r.ok then st
  else
    let u := fb.UpdateValid ext nCurrentHeight true
    if ¬ u.2 then st
    else
      let st1 := st.AddSeenFinalizedBudget u.1
      let st2 := (st1.AddFinalizedBudget ext u.1).1
      { st2 with nSubmittedHeight := nCurrentHeight }

/-- `CBudgetManager::SubmitFinalBudget` (mode `suggest`).  The wallet
call that creates and commits the collateral fee transaction is
injected as `walletTx` (`none` models a wallet or commit failure). -/
def CBudgetManager.SubmitFinalBudget (ext : Extern) (st : CBudgetManager)
    (walletTx : Option Nat) : CBudgetManager :=
  let nCurrentHeight := st.nBestHeight
  let nBlocksPerCycle := ext.nBudgetCycleBlocks
  let nBlockStart := nCurrentHeight - cppMod nCurrentHeight nBlocksPerCycle
    + nBlocksPerCycle
  if st.nSubmittedHeight ≥ nBlockStart then st
  else
    let finalizationWindow := if ext.isTestnet then 64 else cppDiv nBlocksPerCycle 30 * 2
    if nBlockStart - nCurrentHeight > finalizationWindow then st
    else
      let vBudgetProposals := (GetBudgetCore ext nCurrentHeight st.mapProposals).1
      let vecTxBudgetPayments := vBudgetProposals.map
        (fun p => CTxBudgetPayment.mk p.hash p.address p.nAlloted)
      if vecTxBudgetPayments.length < 1 then st
      else
        let budgetHash := ext.hashFB nBlockStart vecTxBudgetPayments
        if alCount st.mapSeenFinalizedBudgets budgetHash then
          { st with nSubmittedHeight := nCurrentHeight }
        else
          if alCount st.mapCollateralTxids budgetHash then
            let txidCollateral := (alGet? st.mapCollateralTxids budgetHash).getD 0
            submitFinalBudgetTail ext st txidCollateral nCurrentHeight nBlockStart
              vecTxBudgetPayments budgetHash
          else
            match walletTx with
            | none => st
            | some txidCollateral =>
              let newCollateralTxids := alEmplace st.mapCollateralTxids budgetHash txidCollateral
              let st1 := { st with mapCollateralTxids := newCollateralTxids }
              submitFinalBudgetTail ext st1 txidCollateral nCurrentHeight nBlockStart
                vecTxBudgetPayments budgetHash

/-- The immature-proposal promotion loop of `CBudgetManager::NewBlock`:
re-check each parked proposal's collateral; keep it parked while the
collateral is still invalid, otherwise validate and (without any
seen-set insertion) add it to the active map. -/
def newBlockPromoteProposals (ext : Extern) :
    CBudgetManager → List CBudgetProposal → CBudgetManager × List CBudgetProposal
  | st, [] => (st, [])
  | st, prop :: rest =>
    let r := IsBudgetCollateralValidE ext prop.nFeeTXHash prop.hash prop.nTime 0 false
    let prop1 := { prop with nTime := r.nTime }
    if ¬ r.ok then
      let t := newBlockPromoteProposals ext st rest
      (t.1, prop1 :: t.2)
    else
      let u := prop1.UpdateValid ext st.nBestHeight true
      if ¬ u.2 then newBlockPromoteProposals ext st rest
      else newBlockPromoteProposals ext (st.AddProposal ext u.1).1 rest

/-- The immature finalized-budget promotion loop of
`CBudgetManager::NewBlock` (same shape as the proposal loop). -/
def newBlockPromoteFinalized (ext : Extern) :
    CBudgetManager → List CFinalizedBudget → CBudgetManager × List CFinalizedBudget
  | st, [] => (st, [])
  | st, fb :: rest =>
    let r := IsBudgetCollateralValidE ext fb.nFeeTXHash fb.hash fb.nTime 0 true
    let fb1 := { fb with nTime := r.nTime }
    if ¬ r.ok then
      let t := newBlockPromoteFinalized ext st rest
      (t.1, fb1 :: t.2)
    else
      let u := fb1.UpdateValid ext st.nBestHeight true
      if ¬ u.2 then newBlockPromoteFinalized ext st rest
      else newBlockPromoteFinalized ext (st.AddFinalizedBudget ext u.1).1 rest

/-- `CBudgetManager::NewBlock`.  External conditions are injected:
`assetsOk` is `RequestedMasternodeAssets > MASTERNODE_SYNC_BUDGET`,
`isSynced` is `masternodeSync.IsSynced()`, `rand1440zero` the
`rand() % 1440 == 0` outcome, `gates` the per-budget `rand() % 4 == 0`
outcomes inside `CheckAndRemove`, and `walletTx` the wallet collateral
creation.  Peer sync pushes and the ask-throttle cleanup are projected
away.  Returns the new state and the auto-check event list. -/
def CBudgetManager.NewBlock (ext : Extern) (st : CBudgetManager) (height : Int)
    (assetsOk : Bool) (strBudgetMode : String) (isSynced rand1440zero : Bool)
    (walletTx : Option Nat) (fMasterNode hasActiveMN : Bool) (gates : Nat → Bool) :
    CBudgetManager × List Nat :=
  let st0 := { st with nBestHeight := height }
  if ¬ assetsOk then (st0, [])
  else
    let st1 := if strBudgetMode = "suggest" then st0.SubmitFinalBudget ext walletTx else st0
    if cppMod st1.nBestHeight 14 ≠ 0 then (st1, [])
    else
      let st2 := if isSynced && rand1440zero then st1.ClearSeen else st1
      let cr := st2.CheckAndRemove ext fMasterNode hasActiveMN gates strBudgetMode
      let st3 := cr.1
      let cleanedProps := st3.mapProposals.map
        (fun kv => (kv.1, kv.2.CleanAndRemove ext.mnExists))
      let st4 := { st3 with mapProposals := cleanedProps }
      let pp := newBlockPromoteProposals ext st4 st4.vecImmatureProposals
      let st5 := { pp.1 with vecImmatureProposals := pp.2 }
      let cleanedFBs := st5.mapFinalizedBudgets.map
        (fun kv => (kv.1, kv.2.CleanAndRemove ext.mnExists))
      let st6 := { st5 with mapFinalizedBudgets := cleanedFBs }
      let pf := newBlockPromoteFinalized ext st6 st6.vecImmatureFinalizedBudgets
      let st7 := { pf.1 with vecImmatureFinalizedBudgets := pf.2 }
      (st7, cr.2)

/-- The spec's seen-superset invariant: every active proposal hash is a
seen proposal hash, and likewise for finalized budgets. -/
def seenSupersetInv (st : CBudgetManager) : Bool :=
  st.mapProposals.all (fun kv => alCount st.mapSeenProposals kv.1)
    && st.mapFinalizedBudgets.all (fun kv => alCount st.mapSeenFinalizedBudgets kv.1)

/-! Helper lemmas about the association-list map model. -/

theorem alGet?_alSet_self (m : List (Nat × α)) (k : Nat) (v : α) :
    alGet? (alSet m k v) k = some v := by
  induction m with
  | nil => simp [alSet, alGet?, List.find?]
  | cons kv rest ih =>
    rcases kv with ⟨k', v'⟩
    by_cases h1 : k < k'
    · simp [alSet, if_pos h1, alGet?, List.find?]
    · by_cases h2 : k = k'
      · simp only [alSet, if_neg h1, if_pos h2]
        simp [alGet?, List.find?]
      · have hne : (k' == k) = false := by
          simp only [beq_eq_false_iff_ne]
          omega
        simp only [alSet, if_neg h1, if_neg h2]
        simp only [alGet?, List.find?, hne] at ih ⊢
        exact ih

theorem alGet?_alSet_ne (m : List (Nat × α)) (k k' : Nat) (v : α) (hne : k' ≠ k) :
    alGet? (alSet m k v) k' = alGet? m k' := by
  have hkk : (k == k') = false := by
    simp only [beq_eq_false_iff_ne]
    omega
  induction m with
  | nil => simp [alSet, alGet?, List.find?, hkk]
  | cons kv rest ih =>
    rcases kv with ⟨a, b⟩
    by_cases h1 : k < a
    · simp [alSet, if_pos h1, alGet?, List.find?, hkk]
    · by_cases h2 : k = a
      · have : (a == k') = false := by
          simp only [beq_eq_false_iff_ne]
          omega
        simp [alSet, if_neg h1, if_pos h2, alGet?, List.find?, hkk, this]
      · simp only [alSet, if_neg h1, if_neg h2]
        by_cases h3 : (a == k')
        · simp [alGet?, List.find?, h3]
        · simp only [alGet?, List.find?, h3] at ih ⊢
          exact ih

theorem alCount_alEmplace_self (m : List (Nat × α)) (k : Nat) (v : α) :
    alCount (alEmplace m k v) k = true := by
  induction m with
  | nil => simp [alEmplace, alCount]
  | cons kv rest ih =>
    rcases kv with ⟨a, b⟩
    by_cases h1 : k < a
    · simp [alEmplace, if_pos h1, alCount]
    · by_cases h2 : k = a
      · simp [alEmplace, if_neg h1, if_pos h2, alCount, List.any_cons, h2]
      · simp only [alEmplace, if_neg h1, if_neg h2, alCount, List.any_cons,
          Bool.or_eq_true]
        right
        simpa [alCount] using ih

theorem alCount_alEmplace_mono (m : List (Nat × α)) (k k' : Nat) (v : α)
    (h : alCount m k' = true) : alCount (alEmplace m k v) k' = true := by
  induction m with
  | nil => simp [alCount] at h
  | cons kv rest ih =>
    rcases kv with ⟨a, b⟩
    simp only [alCount, List.any_cons, Bool.or_eq_true] at h
    by_cases h1 : k < a
    · simp only [alEmplace, if_pos h1, alCount, List.any_cons, Bool.or_eq_true]
      right
      simpa [alCount] using h
    · by_cases h2 : k = a
      · simp only [alEmplace, if_neg h1, if_pos h2]
        simpa [alCount, List.any_cons] using h
      · simp only [alEmplace, if_neg h1, if_neg h2, alCount, List.any_cons,
          Bool.or_eq_true]
        rcases h with h | h
        · exact Or.inl h
        · exact Or.inr (by simpa [alCount] using ih (by simpa [alCount] using h))

theorem mem_alEmplace_of_not_count (m : List (Nat × α)) (k : Nat) (v : α)
    (h : alCount m k = false) : (k, v) ∈ alEmplace m k v := by
  induction m with
  | nil => simp [alEmplace]
  | cons kv rest ih =>
    rcases kv with ⟨a, b⟩
    simp only [alCount, List.any_cons, Bool.or_eq_false_iff] at h
    by_cases h1 : k < a
    · simp [alEmplace, if_pos h1]
    · by_cases h2 : k = a
      · exfalso
        have := h.1
        simp [h2] at this
      · simp only [alEmplace, if_neg h1, if_neg h2]
        exact List.mem_cons_of_mem _ (ih h.2)

theorem alCount_true_of_mem (m : List (Nat × α)) (k : Nat) (v : α)
    (h : (k, v) ∈ m) : alCount m k = true := by
  simp only [alCount, List.any_eq_true]
  exact ⟨(k, v), h, by simp⟩

/-! Helper lemmas about `insertBy` / `sortWith`. -/

theorem mem_insertBy (gt : α → α → Bool) (p x : α) (l : List α) :
    x ∈ insertBy gt p l ↔ x = p ∨ x ∈ l := by
  induction l with
  | nil => simp [insertBy]
  | cons q rest ih =>
    by_cases h : gt p q
    · rw [insertBy, if_pos h]
      simp only [List.mem_cons]
    · rw [insertBy, if_neg h]
      simp only [List.mem_cons, ih]
      tauto

theorem mem_sortWith (gt : α → α → Bool) (x : α) (l : List α) :
    x ∈ sortWith gt l ↔ x ∈ l := by
  induction l with
  | nil => simp [sortWith]
  | cons q rest ih =>
    simp only [sortWith, List.foldr_cons, List.mem_cons]
    rw [mem_insertBy]
    simp only [sortWith] at ih
    rw [ih]

theorem insertBy_pairwise (gt : α → α → Bool)
    (hasym : ∀ a b, gt a b = true → gt b a = false)
    (htrans : ∀ p q x, gt p q = true → gt x q = false → gt x p = false)
    (p : α) (l : List α) (hl : l.Pairwise (fun a b => gt b a = false)) :
    (insertBy gt p l).Pairwise (fun a b => gt b a = false) := by
  induction l with
  | nil => simp [insertBy]
  | cons q rest ih =>
    rcases List.pairwise_cons.mp hl with ⟨hq, hrest⟩
    by_cases h : gt p q
    · rw [insertBy, if_pos h]
      refine List.pairwise_cons.mpr ⟨?_, hl⟩
      intro y hy
      rcases List.mem_cons.mp hy with hy | hy
      · subst hy
        exact hasym _ _ h
      · exact htrans p q y h (hq y hy)
    · rw [insertBy, if_neg h]
      refine List.pairwise_cons.mpr ⟨?_, ih hrest⟩
      intro y hy
      rcases (mem_insertBy gt p y rest).mp hy with hy | hy
      · subst hy
        simpa using h
      · exact hq y hy

theorem sortWith_pairwise (gt : α → α → Bool)
    (hasym : ∀ a b, gt a b = true → gt b a = false)
    (htrans : ∀ p q x, gt p q = true → gt x q = false → gt x p = false)
    (l : List α) :
    (sortWith gt l).Pairwise (fun a b => gt b a = false) := by
  induction l with
  | nil => simp [sortWith]
  | cons q rest ih =>
    exact insertBy_pairwise gt hasym htrans q _ ih

/-! C10 helper. -/

theorem gbhvcLoop_none (h : Int) (l : List (Nat × CFinalizedBudget)) (hi : Int)
    (hhi : 0 ≤ hi)
    (H : ∀ kv ∈ l, ¬ (kv.2.GetVoteCount > 0 ∧ kv.2.nBlockStart ≤ h ∧ h ≤ kv.2.GetBlockEnd)) :
    gbhvcLoop h l hi none = none := by
  induction l generalizing hi with
  | nil => rfl
  | cons kv rest ih =>
    rcases kv with ⟨k, fb⟩
    have hcond : ¬ (fb.GetVoteCount > hi ∧ h ≥ fb.nBlockStart ∧ h ≤ fb.GetBlockEnd) := by
      intro hc
      have hc1 := hc.1
      have hpos : fb.GetVoteCount > 0 := by omega
      exact H (k, fb) (List.mem_cons_self _ _) ⟨hpos, hc.2.1, hc.2.2⟩
    rw [gbhvcLoop, if_neg hcond]
    exact ih hi hhi (fun kv hkv => H kv (List.mem_cons_of_mem _ hkv))

/-- C10: for every height `h`, if no active finalized budget with a
strictly positive vote count covers `h`, then
`GetBudgetWithHighestVoteCount` returns null, `GetHighestVoteCount`
returns -1, and `IsBudgetPaymentBlock` returns false (five percent of
the enabled masternode count is never negative). -/
theorem C10_no_positive_covering (ext : Extern) (st : CBudgetManager) (h : Int)
    (hnone : ∀ kv ∈ st.mapFinalizedBudgets,
      ¬ (kv.2.GetVoteCount > 0 ∧ kv.2.nBlockStart ≤ h ∧ h ≤ kv.2.GetBlockEnd)) :
    st.GetBudgetWithHighestVoteCount h = none ∧
    st.GetHighestVoteCount h = -1 ∧
    CBudgetManager.IsBudgetPaymentBlock ext st h = false := by
  have h1 : st.GetBudgetWithHighestVoteCount h = none :=
    gbhvcLoop_none h _ 0 le_rfl hnone
  have h2 : st.GetHighestVoteCount h = -1 := by
    rw [CBudgetManager.GetHighestVoteCount, h1]
  refine ⟨h1, h2, ?_⟩
  have hfp : 0 ≤ cppDiv (ext.mnCountEnabled : Int) 20 :=
    Int.tdiv_nonneg (Int.natCast_nonneg _) (by norm_num)
  rw [CBudgetManager.IsBudgetPaymentBlock, CBudgetManager.IsBudgetPaymentBlockOut]
  simp only [h2, decide_eq_false_iff_not]
  omega

/-- A minimal external environment for concrete evaluations. -/
def extW : Extern :=
  { nBudgetCycleBlocks := 100
    nProposalEstablishmentTime := 10
    nBudgetFeeConfirmations := 1
    mnCountEnabled := 20
    timeNow := 1000
    adjustedTimeNow := 1000
    tipHeight := 50
    findTx := fun _ => none
    ixConfs := fun _ => 0
    mnExists := fun _ => true
    isTestnet := true
    posActive := fun _ => false
    zcV2Active := fun _ => false
    blockValue := fun _ => 1000
    hashFB := fun _ _ => 77 }

/-- An empty manager state for concrete evaluations. -/
def stEmptyW : CBudgetManager :=
  { mapProposals := []
    mapSeenProposals := []
    mapFinalizedBudgets := []
    mapSeenFinalizedBudgets := []
    vecImmatureProposals := []
    vecImmatureFinalizedBudgets := []
    mapCollateralTxids := []
    nBestHeight := 5
    nSubmittedHeight := 0 }

/-- Witness for C10 at a concrete empty state. -/
theorem C10_no_positive_covering_witness :
    stEmptyW.GetBudgetWithHighestVoteCount 7 = none ∧
    stEmptyW.GetHighestVoteCount 7 = -1 ∧
    CBudgetManager.IsBudgetPaymentBlock extW stEmptyW 7 = false :=
  C10_no_positive_covering extW stEmptyW 7 (by intro kv hkv; simp [stEmptyW] at hkv)

/-! C5 helpers: the three properties of `AddOrUpdateVote`, proposal side
and finalized side. -/

theorem proposal_vote_false_iff (um tn : Int) (p : CBudgetProposal) (v : CBudgetVote) :
    ((p.AddOrUpdateVote um tn v).1 = false) ↔
      ((∃ old, alGet? p.mapVotes v.voterHash = some old ∧
          (old.nTime > v.nTime ∨ v.nTime - old.nTime < um)) ∨
        v.nTime > tn + 60 * 60) := by
  rw [CBudgetProposal.AddOrUpdateVote]
  cases hget : alGet? p.mapVotes v.voterHash with
  | none =>
    simp only [hget]
    split_ifs with h1
    · simp only [true_iff]
      right
      omega
    · simp only [false_iff, not_or, not_exists]
      refine ⟨?_, by omega⟩
      intro old hold
      exact hold.1
  | some old0 =>
    simp only [hget]
    split_ifs with h1 h2 h3
    · simp only [true_iff]
      exact Or.inl ⟨old0, rfl, Or.inl h1⟩
    · simp only [true_iff]
      exact Or.inl ⟨old0, rfl, Or.inr h2⟩
    · simp only [true_iff]
      right
      omega
    · simp only [false_iff, not_or, not_exists]
      refine ⟨?_, by omega⟩
      intro old hold
      obtain ⟨heq, hcond⟩ := hold
      cases heq
      rcases hcond with hc | hc
      · omega
      · omega

theorem proposal_vote_unchanged (um tn : Int) (p : CBudgetProposal) (v : CBudgetVote)
    (h : (p.AddOrUpdateVote um tn v).1 = false) :
    (p.AddOrUpdateVote um tn v).2 = p := by
  rw [CBudgetProposal.AddOrUpdateVote] at h ⊢
  cases hget : alGet? p.mapVotes v.voterHash with
  | none =>
    simp only [hget] at h ⊢
    split_ifs at h ⊢ with h1
    all_goals rfl
  | some old0 =>
    simp only [hget] at h ⊢
    split_ifs at h ⊢ with h1 h2 h3
    all_goals rfl

theorem proposal_vote_monotone (um tn : Int) (p : CBudgetProposal) (v : CBudgetVote)
    (k : Nat) (old nw : CBudgetVote)
    (hold : alGet? p.mapVotes k = some old)
    (hnew : alGet? (p.AddOrUpdateVote um tn v).2.mapVotes k = some nw) :
    old.nTime ≤ nw.nTime := by
  by_cases hres : (p.AddOrUpdateVote um tn v).1 = false
  · rw [proposal_vote_unchanged um tn p v hres, hold] at hnew
    cases hnew
    exact le_refl _
  · rw [CBudgetProposal.AddOrUpdateVote] at hres hnew
    cases hget : alGet? p.mapVotes v.voterHash with
    | none =>
      simp only [hget] at hres hnew
      split_ifs at hres hnew with h1
      · simp at hres
      · by_cases hk : k = v.voterHash
        · rw [hk, hget] at hold
          exact absurd hold (by simp)
        · simp only at hnew
          rw [alGet?_alSet_ne p.mapVotes v.voterHash k v hk, hold] at hnew
          cases hnew
          exact le_refl _
    | some old0 =>
      simp only [hget] at hres hnew
      split_ifs at hres hnew with h1 h2 h3
      · simp at hres
      · simp at hres
      · simp at hres
      · by_cases hk : k = v.voterHash
        · subst hk
          rw [hget] at hold
          have hoe : old0 = old := Option.some.inj hold
          rw [alGet?_alSet_self] at hnew
          have hne : v = nw := Option.some.inj hnew
          rw [← hoe, ← hne]
          omega
        · rw [alGet?_alSet_ne p.mapVotes v.voterHash k v hk, hold] at hnew
          cases hnew
          exact le_refl _

theorem finalized_vote_false_iff (um tn : Int) (fb : CFinalizedBudget)
    (w : CFinalizedBudgetVote) :
    ((fb.AddOrUpdateVote um tn w).1 = false) ↔
      ((∃ old, alGet? fb.mapVotes w.voterHash = some old ∧
          (old.nTime > w.nTime ∨ w.nTime - old.nTime < um)) ∨
        w.nTime > tn + 60 * 60) := by
  rw [CFinalizedBudget.AddOrUpdateVote]
  cases hget : alGet? fb.mapVotes w.voterHash with
  | none =>
    simp only [hget]
    split_ifs with h1
    · simp only [true_iff]
      right
      omega
    · simp only [false_iff, not_or, not_exists]
      refine ⟨?_, by omega⟩
      intro old hold
      exact hold.1
  | some old0 =>
    simp only [hget]
    split_ifs with h1 h2 h3
    · simp only [true_iff]
      exact Or.inl ⟨old0, rfl, Or.inl h1⟩
    · simp only [true_iff]
      exact Or.inl ⟨old0, rfl, Or.inr h2⟩
    · simp only [true_iff]
      right
      omega
    · simp only [false_iff, not_or, not_exists]
      refine ⟨?_, by omega⟩
      intro old hold
      obtain ⟨heq, hcond⟩ := hold
      cases heq
      rcases hcond with hc | hc
      · omega
      · omega

theorem finalized_vote_unchanged (um tn : Int) (fb : CFinalizedBudget)
    (w : CFinalizedBudgetVote) (h : (fb.AddOrUpdateVote um tn w).1 = false) :
    (fb.AddOrUpdateVote um tn w).2 = fb := by
  rw [CFinalizedBudget.AddOrUpdateVote] at h ⊢
  cases hget : alGet? fb.mapVotes w.voterHash with
  | none =>
    simp only [hget] at h ⊢
    split_ifs at h ⊢ with h1
    all_goals rfl
  | some old0 =>
    simp only [hget] at h ⊢
    split_ifs at h ⊢ with h1 h2 h3
    all_goals rfl

theorem finalized_vote_monotone (um tn : Int) (fb : CFinalizedBudget)
    (w : CFinalizedBudgetVote) (k : Nat) (old nw : CFinalizedBudgetVote)
    (hold : alGet? fb.mapVotes k = some old)
    (hnew : alGet? (fb.AddOrUpdateVote um tn w).2.mapVotes k = some nw) :
    old.nTime ≤ nw.nTime := by
  by_cases hres : (fb.AddOrUpdateVote um tn w).1 = false
  · rw [finalized_vote_unchanged um tn fb w hres, hold] at hnew
    cases hnew
    exact le_refl _
  · rw [CFinalizedBudget.AddOrUpdateVote] at hres hnew
    cases hget : alGet? fb.mapVotes w.voterHash with
    | none =>
      simp only [hget] at hres hnew
      split_ifs at hres hnew with h1
      · simp at hres
      · by_cases hk : k = w.voterHash
        · rw [hk, hget] at hold
          exact absurd hold (by simp)
        · simp only at hnew
          rw [alGet?_alSet_ne fb.mapVotes w.voterHash k w hk, hold] at hnew
          cases hnew
          exact le_refl _
    | some old0 =>
      simp only [hget] at hres hnew
      split_ifs at hres hnew with h1 h2 h3
      · simp at hres
      · simp at hres
      · simp at hres
      · by_cases hk : k = w.voterHash
        · subst hk
          rw [hget] at hold
          have hoe : old0 = old := Option.some.inj hold
          rw [alGet?_alSet_self] at hnew
          have hne : w = nw := Option.some.inj hnew
          rw [← hoe, ← hne]
          omega
        · rw [alGet?_alSet_ne fb.mapVotes w.voterHash k w hk, hold] at hnew
          cases hnew
          exact le_refl _

/-- C5: on proposals and finalized budgets alike, `AddOrUpdateVote`
rejects (returning false with the vote map unchanged) exactly the votes
that are older than the retained vote, or less than the minimum update
interval newer than it, or more than one hour ahead of the clock; as a
consequence the retained vote time for any (voter, target) pair never
decreases. -/
theorem C5_vote_update (um tn : Int) (p : CBudgetProposal) (fb : CFinalizedBudget)
    (v : CBudgetVote) (w : CFinalizedBudgetVote) :
    ((((p.AddOrUpdateVote um tn v).1 = false) ↔
        ((∃ old, alGet? p.mapVotes v.voterHash = some old ∧
            (old.nTime > v.nTime ∨ v.nTime - old.nTime < um)) ∨
          v.nTime > tn + 60 * 60)) ∧
      ((p.AddOrUpdateVote um tn v).1 = false → (p.AddOrUpdateVote um tn v).2 = p) ∧
      (∀ k old nw, alGet? p.mapVotes k = some old →
        alGet? (p.AddOrUpdateVote um tn v).2.mapVotes k = some nw →
        old.nTime ≤ nw.nTime)) ∧
    ((((fb.AddOrUpdateVote um tn w).1 = false) ↔
        ((∃ old, alGet? fb.mapVotes w.voterHash = some old ∧
            (old.nTime > w.nTime ∨ w.nTime - old.nTime < um)) ∨
          w.nTime > tn + 60 * 60)) ∧
      ((fb.AddOrUpdateVote um tn w).1 = false → (fb.AddOrUpdateVote um tn w).2 = fb) ∧
      (∀ k old nw, alGet? fb.mapVotes k = some old →
        alGet? (fb.AddOrUpdateVote um tn w).2.mapVotes k = some nw →
        old.nTime ≤ nw.nTime)) :=
  ⟨⟨proposal_vote_false_iff um tn p v,
    proposal_vote_unchanged um tn p v,
    fun k old nw h1 h2 => proposal_vote_monotone um tn p v k old nw h1 h2⟩,
   ⟨finalized_vote_false_iff um tn fb w,
    finalized_vote_unchanged um tn fb w,
    fun k old nw h1 h2 => finalized_vote_monotone um tn fb w k old nw h1 h2⟩⟩

/-- Concrete vote fixtures for the C5 witness. -/
def voteOldW : CBudgetVote :=
  { voterHash := 7, nProposalHash := 81, nVote := .voteYes, nTime := 100,
    fValid := true, fSynced := false }

def voteNewW : CBudgetVote :=
  { voterHash := 7, nProposalHash := 81, nVote := .voteYes, nTime := 5000,
    fValid := true, fSynced := false }

def pVoteW : CBudgetProposal :=
  { nAlloted := 0, fValid := true, nBlockStart := 0, nBlockEnd := 31,
    address := .normalPayment 1, nAmount := 10 * COIN, nTime := 0,
    nFeeTXHash := 60, hash := 81, mapVotes := [(7, voteOldW)] }

def fbVoteOldW : CFinalizedBudgetVote :=
  { voterHash := 7, nBudgetHash := 91, nTime := 100, fValid := true, fSynced := false }

def fbVoteNewW : CFinalizedBudgetVote :=
  { voterHash := 7, nBudgetHash := 91, nTime := 5000, fValid := true, fSynced := false }

def fbVoteW : CFinalizedBudget :=
  { fAutoChecked := false, fValid := true, strBudgetName := "main", nBlockStart := 50,
    vecBudgetPayments := [], nFeeTXHash := 40, nTime := 0, hash := 91,
    mapVotes := [(7, fbVoteOldW)], mapPayment_History := [] }

/-- Witness for C5: a concrete later vote is retained and the time
does not decrease, on both a proposal and a finalized budget. -/
theorem C5_vote_update_witness :
    alGet? pVoteW.mapVotes 7 = some voteOldW ∧
    alGet? (pVoteW.AddOrUpdateVote 3600 10000 voteNewW).2.mapVotes 7 = some voteNewW ∧
    voteOldW.nTime ≤ voteNewW.nTime ∧
    alGet? fbVoteW.mapVotes 7 = some fbVoteOldW ∧
    alGet? (fbVoteW.AddOrUpdateVote 3600 10000 fbVoteNewW).2.mapVotes 7 = some fbVoteNewW ∧
    fbVoteOldW.nTime ≤ fbVoteNewW.nTime := by
  have h := C5_vote_update 3600 10000 pVoteW fbVoteW voteNewW fbVoteNewW
  have e1 : alGet? pVoteW.mapVotes 7 = some voteOldW := by decide
  have e2 : alGet? (pVoteW.AddOrUpdateVote 3600 10000 voteNewW).2.mapVotes 7
      = some voteNewW := by decide
  have e3 : alGet? fbVoteW.mapVotes 7 = some fbVoteOldW := by rfl
  have e4 : alGet? (fbVoteW.AddOrUpdateVote 3600 10000 fbVoteNewW).2.mapVotes 7
      = some fbVoteNewW := by rfl
  exact ⟨e1, e2, h.1.2.2 7 voteOldW voteNewW e1 e2, e3, e4,
    h.2.2.2 7 fbVoteOldW fbVoteNewW e3 e4⟩

/-! C3 helper: a closed form for the collateral output scan. -/

theorem collateralOutputScan_eq (fs : CScript) (fee : CAmount) (l : List CTxOut)
    (acc : Bool) :
    collateralOutputScan fs fee l acc =
      if l.any (fun o => !(o.scriptPubKey.isNormalPaymentScript
          || o.scriptPubKey.isUnspendable)) then
        Except.error CollErr.invalidScript
      else
        Except.ok (acc || l.any (fun o => o.scriptPubKey == fs
          && decide (o.nValue ≥ fee))) := by
  induction l generalizing acc with
  | nil => simp [collateralOutputScan]
  | cons o rest ih =>
    rw [collateralOutputScan]
    by_cases hbad : (o.scriptPubKey.isNormalPaymentScript
        || o.scriptPubKey.isUnspendable) = false
    · rw [if_pos (by simp [hbad])]
      rw [if_pos (by
        simp only [List.any_cons, hbad, Bool.not_false, Bool.true_or])]
    · have hgood : (o.scriptPubKey.isNormalPaymentScript
          || o.scriptPubKey.isUnspendable) = true := by
        revert hbad
        cases o.scriptPubKey.isNormalPaymentScript || o.scriptPubKey.isUnspendable
        · simp
        · simp
      rw [if_neg (by simp [hgood])]
      rw [ih]
      simp only [List.any_cons, hgood, Bool.not_true, Bool.false_or]
      by_cases hrest : rest.any (fun o => !(o.scriptPubKey.isNormalPaymentScript
          || o.scriptPubKey.isUnspendable)) = true
      · rw [if_pos hrest, if_pos hrest]
      · rw [if_neg hrest, if_neg hrest]
        congr 1
        cases hmatch : (o.scriptPubKey == fs && decide (o.nValue ≥ fee))
        · simp
        · simp

/-! C3 computation lemmas: the value of `IsBudgetCollateralValid` on
each branch. -/

theorem IsBudgetCollateralValid_none (ixConfs tip req : Int) (eh : Nat) (t0 c0 : Int)
    (fFin : Bool) :
    IsBudgetCollateralValid none ixConfs tip req eh t0 c0 fFin
      = ⟨false, some .txNotFound, t0, c0⟩ := rfl

theorem IsBudgetCollateralValid_empty (l : TxLookup) (ixConfs tip req : Int) (eh : Nat)
    (t0 c0 : Int) (fFin : Bool) (hv : l.tx.vout = []) :
    IsBudgetCollateralValid (some l) ixConfs tip req eh t0 c0 fFin
      = ⟨false, none, t0, c0⟩ := by
  rw [IsBudgetCollateralValid]
  rw [if_pos (by simp [hv])]

theorem IsBudgetCollateralValid_locktime (l : TxLookup) (ixConfs tip req : Int)
    (eh : Nat) (t0 c0 : Int) (fFin : Bool) (hv : ¬ l.tx.vout.length < 1)
    (hl : l.tx.nLockTime ≠ 0) :
    IsBudgetCollateralValid (some l) ixConfs tip req eh t0 c0 fFin
      = ⟨false, none, t0, c0⟩ := by
  rw [IsBudgetCollateralValid]
  rw [if_neg hv, if_pos hl]

theorem IsBudgetCollateralValid_badscript (l : TxLookup) (ixConfs tip req : Int)
    (eh : Nat) (t0 c0 : Int) (fFin : Bool) (hv : ¬ l.tx.vout.length < 1)
    (hl : ¬ l.tx.nLockTime ≠ 0)
    (hbad : l.tx.vout.any (fun o => !(o.scriptPubKey.isNormalPaymentScript
      || o.scriptPubKey.isUnspendable)) = true) :
    IsBudgetCollateralValid (some l) ixConfs tip req eh t0 c0 fFin
      = ⟨false, some .invalidScript, t0, c0⟩ := by
  rw [IsBudgetCollateralValid]
  rw [if_neg hv, if_neg hl]
  simp only [collateralOutputScan_eq, hbad, if_true]

theorem IsBudgetCollateralValid_noOpReturn (l : TxLookup) (ixConfs tip req : Int)
    (eh : Nat) (t0 c0 : Int) (fFin : Bool) (hv : ¬ l.tx.vout.length < 1)
    (hl : ¬ l.tx.nLockTime ≠ 0)
    (hbad : l.tx.vout.any (fun o => !(o.scriptPubKey.isNormalPaymentScript
      || o.scriptPubKey.isUnspendable)) = false)
    (hfound : l.tx.vout.any (fun o => o.scriptPubKey == CScript.opReturnPush eh
      && decide (o.nValue ≥ (if fFin then BUDGET_FEE_TX else PROPOSAL_FEE_TX)))
      = false) :
    IsBudgetCollateralValid (some l) ixConfs tip req eh t0 c0 fFin
      = ⟨false, some .opReturnNotFound, t0, c0⟩ := by
  rw [IsBudgetCollateralValid]
  rw [if_neg hv, if_neg hl]
  simp only [collateralOutputScan_eq, hbad, Bool.false_eq_true, if_false,
    Bool.false_or, hfound]

theorem IsBudgetCollateralValid_found (l : TxLookup) (ixConfs tip req : Int)
    (eh : Nat) (t0 c0 : Int) (fFin : Bool) (hv : ¬ l.tx.vout.length < 1)
    (hl : ¬ l.tx.nLockTime ≠ 0)
    (hbad : l.tx.vout.any (fun o => !(o.scriptPubKey.isNormalPaymentScript
      || o.scriptPubKey.isUnspendable)) = false)
    (hfound : l.tx.vout.any (fun o => o.scriptPubKey == CScript.opReturnPush eh
      && decide (o.nValue ≥ (if fFin then BUDGET_FEE_TX else PROPOSAL_FEE_TX)))
      = true) :
    IsBudgetCollateralValid (some l) ixConfs tip req eh t0 c0 fFin
      = (let conf : Int := ixConfs +
          (match l.blockOnChain with
           | some (bh, _) => tip - bh + 1
           | none => 0)
         let nTime : Int :=
          match l.blockOnChain with
          | some (_, bt) => bt
          | none => t0
         if conf ≥ req then ⟨true, none, nTime, conf⟩
         else ⟨false, some .notEnoughConfs, nTime, conf⟩) := by
  rw [IsBudgetCollateralValid]
  rw [if_neg hv, if_neg hl]
  simp only [collateralOutputScan_eq, hbad, Bool.false_eq_true, if_false,
    Bool.false_or, hfound]

/-- C3 (amended): `IsBudgetCollateralValid` succeeds iff the transaction
is found, has an output, has locktime 0, every output is a normal
payment script or unspendable, some output carries the expected
OP_RETURN commitment with at least the required fee, and the
confirmation count reaches the consensus requirement; on failure it
yields a textual reason except on the empty-output and nonzero-locktime
paths, which fail silently. -/
theorem C3_collateral_valid (find : Option TxLookup) (ixConfs tip req : Int)
    (eh : Nat) (t0 c0 : Int) (fFin : Bool) :
    ((IsBudgetCollateralValid find ixConfs tip req eh t0 c0 fFin).ok = true ↔
      (∃ l, find = some l ∧ l.tx.vout ≠ [] ∧ l.tx.nLockTime = 0 ∧
        (∀ o ∈ l.tx.vout, o.scriptPubKey.isNormalPaymentScript = true ∨
          o.scriptPubKey.isUnspendable = true) ∧
        (∃ o ∈ l.tx.vout, o.scriptPubKey = CScript.opReturnPush eh ∧
          o.nValue ≥ (if fFin then BUDGET_FEE_TX else PROPOSAL_FEE_TX)) ∧
        ixConfs + (match l.blockOnChain with
          | some (bh, _) => tip - bh + 1
          | none => 0) ≥ req)) ∧
    ((IsBudgetCollateralValid find ixConfs tip req eh t0 c0 fFin).strError = none ↔
      ((IsBudgetCollateralValid find ixConfs tip req eh t0 c0 fFin).ok = true ∨
        ∃ l, find = some l ∧ (l.tx.vout = [] ∨ l.tx.nLockTime ≠ 0))) := by
  cases find with
  | none =>
    rw [IsBudgetCollateralValid_none]
    constructor
    · simp
    · simp
  | some l =>
    by_cases hv : l.tx.vout.length < 1
    · have hnil : l.tx.vout = [] := List.length_eq_zero.mp (by omega)
      rw [IsBudgetCollateralValid_empty l ixConfs tip req eh t0 c0 fFin hnil]
      constructor
      · constructor
        · intro h
          exact absurd h (by simp)
        · rintro ⟨l', hl', hnn, -⟩
          cases hl'
          exact absurd hnil hnn
      · constructor
        · intro _
          exact Or.inr ⟨l, rfl, Or.inl hnil⟩
        · intro _
          rfl
    · by_cases hl0 : l.tx.nLockTime = 0
      · have hlne : ¬ l.tx.nLockTime ≠ 0 := by simp [hl0]
        by_cases hbad : l.tx.vout.any (fun o => !(o.scriptPubKey.isNormalPaymentScript
            || o.scriptPubKey.isUnspendable)) = true
        · rw [IsBudgetCollateralValid_badscript l ixConfs tip req eh t0 c0 fFin hv
            hlne hbad]
          obtain ⟨o, ho, hbo⟩ := List.any_eq_true.mp hbad
          have hob : o.scriptPubKey.isNormalPaymentScript = false ∧
              o.scriptPubKey.isUnspendable = false := by
            rcases h1 : o.scriptPubKey.isNormalPaymentScript with - | -
            · rcases h2 : o.scriptPubKey.isUnspendable with - | -
              · exact ⟨rfl, rfl⟩
              · rw [h1, h2] at hbo
                simp at hbo
            · rw [h1] at hbo
              simp at hbo
          constructor
          · constructor
            · intro h
              exact absurd h (by simp)
            · rintro ⟨l', hl', -, -, hall, -, -⟩
              cases hl'
              rcases hall o ho with h | h
              · rw [hob.1] at h
                cases h
              · rw [hob.2] at h
                cases h
          · constructor
            · intro h
              cases h
            · rintro (h | ⟨l', hl', hc⟩)
              · simp at h
              · cases hl'
                rcases hc with hc | hc
                · rw [hc] at hv
                  simp at hv
                · exact absurd hl0 hc
        · have hbad' : l.tx.vout.any (fun o => !(o.scriptPubKey.isNormalPaymentScript
              || o.scriptPubKey.isUnspendable)) = false := by
            revert hbad
            cases l.tx.vout.any (fun o => !(o.scriptPubKey.isNormalPaymentScript
              || o.scriptPubKey.isUnspendable))
            · intro _
              rfl
            · intro h
              exact absurd rfl h
          have hall : ∀ o ∈ l.tx.vout, o.scriptPubKey.isNormalPaymentScript = true ∨
              o.scriptPubKey.isUnspendable = true := by
            intro o ho
            have := List.any_eq_false.mp (by exact hbad') o ho
            rcases h1 : o.scriptPubKey.isNormalPaymentScript with - | -
            · rcases h2 : o.scriptPubKey.isUnspendable with - | -
              · rw [h1, h2] at this
                simp at this
              · exact Or.inr rfl
            · exact Or.inl rfl
          by_cases hfound : l.tx.vout.any (fun o => o.scriptPubKey == CScript.opReturnPush eh
              && decide (o.nValue ≥ (if fFin then BUDGET_FEE_TX else PROPOSAL_FEE_TX)))
              = true
          · obtain ⟨o, ho, hcond⟩ := List.any_eq_true.mp hfound
            rw [Bool.and_eq_true] at hcond
            have hex : ∃ o ∈ l.tx.vout, o.scriptPubKey = CScript.opReturnPush eh ∧
                o.nValue ≥ (if fFin then BUDGET_FEE_TX else PROPOSAL_FEE_TX) :=
              ⟨o, ho, beq_iff_eq.mp hcond.1, of_decide_eq_true hcond.2⟩
            rw [IsBudgetCollateralValid_found l ixConfs tip req eh t0 c0 fFin hv
              hlne hbad' hfound]
            cases hbc : l.blockOnChain with
            | none =>
              simp only
              by_cases hconf : ixConfs + 0 ≥ req
              · rw [if_pos hconf]
                constructor
                · constructor
                  · intro _
                    refine ⟨l, rfl, ?_, hl0, hall, hex, ?_⟩
                    · intro hn
                      rw [hn] at hv
                      simp at hv
                    · rw [hbc]
                      exact hconf
                  · intro _
                    rfl
                · simp
              · rw [if_neg hconf]
                constructor
                · constructor
                  · intro h
                    exact absurd h (by simp)
                  · rintro ⟨l', hl', -, -, -, -, hc⟩
                    cases hl'
                    rw [hbc] at hc
                    exact absurd hc hconf
                · constructor
                  · intro h
                    cases h
                  · rintro (h | ⟨l', hl', hc⟩)
                    · simp at h
                    · cases hl'
                      rcases hc with hc | hc
                      · rw [hc] at hv
                        simp at hv
                      · exact absurd hl0 hc
            | some p =>
              rcases p with ⟨bh, bt⟩
              simp only
              by_cases hconf : ixConfs + (tip - bh + 1) ≥ req
              · rw [if_pos hconf]
                constructor
                · constructor
                  · intro _
                    refine ⟨l, rfl, ?_, hl0, hall, hex, ?_⟩
                    · intro hn
                      rw [hn] at hv
                      simp at hv
                    · rw [hbc]
                      exact hconf
                  · intro _
                    rfl
                · simp
              · rw [if_neg hconf]
                constructor
                · constructor
                  · intro h
                    exact absurd h (by simp)
                  · rintro ⟨l', hl', -, -, -, -, hc⟩
                    cases hl'
                    rw [hbc] at hc
                    exact absurd hc hconf
                · constructor
                  · intro h
                    cases h
                  · rintro (h | ⟨l', hl', hc⟩)
                    · simp at h
                    · cases hl'
                      rcases hc with hc | hc
                      · rw [hc] at hv
                        simp at hv
                      · exact absurd hl0 hc
          · have hfound' : l.tx.vout.any (fun o => o.scriptPubKey == CScript.opReturnPush eh
                && decide (o.nValue ≥ (if fFin then BUDGET_FEE_TX else PROPOSAL_FEE_TX)))
                = false := by
              revert hfound
              cases l.tx.vout.any (fun o => o.scriptPubKey == CScript.opReturnPush eh
                && decide (o.nValue ≥ (if fFin then BUDGET_FEE_TX else PROPOSAL_FEE_TX)))
              · intro _
                rfl
              · intro h
                exact absurd rfl h
            rw [IsBudgetCollateralValid_noOpReturn l ixConfs tip req eh t0 c0 fFin hv
              hlne hbad' hfound']
            constructor
            · constructor
              · intro h
                exact absurd h (by simp)
              · rintro ⟨l', hl', -, -, -, ⟨o, ho, hos, hov⟩, -⟩
                cases hl'
                have hpo := List.any_eq_false.mp hfound' o ho
                simp only [hos, beq_self_eq_true, Bool.true_and,
                  decide_eq_true_eq] at hpo
                exact (hpo hov).elim
            · constructor
              · intro h
                cases h
              · rintro (h | ⟨l', hl', hc⟩)
                · simp at h
                · cases hl'
                  rcases hc with hc | hc
                  · rw [hc] at hv
                    simp at hv
                  · exact absurd hl0 hc
      · have hlne : l.tx.nLockTime ≠ 0 := hl0
        rw [IsBudgetCollateralValid_locktime l ixConfs tip req eh t0 c0 fFin hv hlne]
        constructor
        · constructor
          · intro h
            exact absurd h (by simp)
          · rintro ⟨l', hl', -, hlz, -⟩
            cases hl'
            exact absurd hlz hlne
        · constructor
          · intro _
            exact Or.inr ⟨l, rfl, Or.inr hlne⟩
          · intro _
            rfl

/-- A found transaction with no outputs: a failing collateral input. -/
def lNoOutputsW : TxLookup := { tx := { vout := [], nLockTime := 0 }, blockOnChain := none }

/-- Counterexample to C3 as stated: on this failing input (transaction
found but with no outputs) the validator fails without yielding any
textual reason, refuting the clause that every failure yields one. -/
theorem C3_counterexample :
    (IsBudgetCollateralValid (some lNoOutputsW) 0 0 1 5 0 0 false).ok = false ∧
    (IsBudgetCollateralValid (some lNoOutputsW) 0 0 1 5 0 0 false).strError = none :=
  ⟨rfl, rfl⟩

/-- A valid proposal collateral lookup: one OP_RETURN output committing
to hash 5 with the proposal fee, buried 6 blocks deep. -/
def lGoodCollW : TxLookup :=
  { tx := { vout := [⟨CScript.opReturnPush 5, PROPOSAL_FEE_TX⟩], nLockTime := 0 }
    blockOnChain := some (10, 999) }

/-- Witness for C3: the amended characterization applied at a concrete
valid collateral. -/
theorem C3_collateral_valid_witness :
    (IsBudgetCollateralValid (some lGoodCollW) 0 15 6 5 0 0 false).ok = true :=
  (C3_collateral_valid (some lGoodCollW) 0 15 6 5 0 0 false).1.mpr
    ⟨lGoodCollW, rfl, by decide, rfl,
      by intro o ho; right; simp [lGoodCollW] at ho; rw [ho]; rfl,
      ⟨⟨CScript.opReturnPush 5, PROPOSAL_FEE_TX⟩, by decide, rfl, by decide⟩,
      by decide⟩

/-! C4 helpers. -/

theorem mem_keys_alEmplace (m : List (Nat × α)) (k x : Nat) (v : α)
    (h : x ∈ (alEmplace m k v).map (·.1)) : x = k ∨ x ∈ m.map (·.1) := by
  induction m with
  | nil =>
    simp [alEmplace] at h
    exact Or.inl h
  | cons kv rest ih =>
    rcases kv with ⟨a, b⟩
    by_cases h1 : k < a
    · rw [alEmplace, if_pos h1] at h
      simp only [List.map_cons, List.mem_cons] at h ⊢
      tauto
    · by_cases h2 : k = a
      · rw [alEmplace, if_neg h1, if_pos h2] at h
        exact Or.inr h
      · rw [alEmplace, if_neg h1, if_neg h2] at h
        simp only [List.map_cons, List.mem_cons] at h ⊢
        rcases h with h | h
        · tauto
        · rcases ih h with h | h
          · tauto
          · tauto

theorem alEmplace_pairwise (m : List (Nat × α)) (k : Nat) (v : α)
    (hm : (m.map (·.1)).Pairwise (· < ·)) :
    ((alEmplace m k v).map (·.1)).Pairwise (· < ·) := by
  induction m with
  | nil => simp [alEmplace]
  | cons kv rest ih =>
    rcases kv with ⟨a, b⟩
    simp only [List.map_cons, List.pairwise_cons] at hm
    by_cases h1 : k < a
    · rw [alEmplace, if_pos h1]
      simp only [List.map_cons, List.pairwise_cons]
      refine ⟨?_, hm.1, hm.2⟩
      intro y hy
      rcases List.mem_cons.mp hy with hy | hy
      · omega
      · have := hm.1 y hy
        omega
    · by_cases h2 : k = a
      · rw [alEmplace, if_neg h1, if_pos h2]
        simp only [List.map_cons, List.pairwise_cons]
        exact hm
      · rw [alEmplace, if_neg h1, if_neg h2]
        simp only [List.map_cons, List.pairwise_cons]
        refine ⟨?_, ih hm.2⟩
        intro y hy
        rcases mem_keys_alEmplace rest k y v hy with hy | hy
        · omega
        · exact hm.1 y hy

theorem filter_pairwise_keys (m : List (Nat × α)) (p : Nat × α → Bool)
    (hm : (m.map (·.1)).Pairwise (· < ·)) :
    ((m.filter p).map (·.1)).Pairwise (· < ·) := by
  have hsub : (m.filter p).Sublist m := List.filter_sublist m
  have : ((m.filter p).map (·.1)).Sublist (m.map (·.1)) := List.Sublist.map _ hsub
  exact hm.sublist this

/-- The in-range evaluation of `CFinalizedBudget::IsTransactionValid`. -/
theorem fbITV_inrange (fb : CFinalizedBudget) (tx : CTransaction) (h : Int)
    (hub : ¬ h > fb.GetBlockEnd) (hlb : ¬ h < fb.nBlockStart)
    (hsz : ¬ (h - fb.nBlockStart) > (fb.vecBudgetPayments.length : Int) - 1)
    (payment : CTxBudgetPayment)
    (hp : fb.vecBudgetPayments.get? (h - fb.nBlockStart).toNat = some payment) :
    fb.IsTransactionValid tx h =
      (if (fb.IsPaidAlready payment.nProposalHash h).1 then
        (.DoublePayment, { fb with mapPayment_History := (fb.IsPaidAlready payment.nProposalHash h).2 })
      else if tx.vout.reverse.any (fun out => payment.payee == out.scriptPubKey
          && payment.nAmount == out.nValue) then
        (.Valid, { fb with mapPayment_History := (fb.IsPaidAlready payment.nProposalHash h).2 })
      else
        (.InValid, { fb with mapPayment_History := (fb.IsPaidAlready payment.nProposalHash h).2 })) := by
  rw [CFinalizedBudget.IsTransactionValid]
  rw [if_neg hub, if_neg hlb]
  simp only [hsz, if_false, hp]

/-- C4: for a finalized budget at an in-range height, block-transaction
validation first prunes payment-history entries recorded outside
`[start_block, block_end]`; if the height's proposal hash is not yet
recorded it records it and proceeds to match outputs (so the first call
never reports a double payment), a second in-range call whose payment
names the already-recorded proposal hash returns `DoublePayment`, and
the history keys stay strictly sorted, hence each proposal hash appears
at most once per cycle. -/
theorem C4_payment_history (fb : CFinalizedBudget) (tx tx2 : CTransaction) (h h2 : Int)
    (hin1 : fb.nBlockStart ≤ h) (hin2 : h ≤ fb.GetBlockEnd)
    (hin3 : fb.nBlockStart ≤ h2) (hin4 : h2 ≤ fb.GetBlockEnd)
    (payment payment2 : CTxBudgetPayment)
    (hp : fb.vecBudgetPayments.get? (h - fb.nBlockStart).toNat = some payment)
    (hp2 : fb.vecBudgetPayments.get? (h2 - fb.nBlockStart).toNat = some payment2)
    (hnotpaid : alCount (fb.mapPayment_History.filter
        (fun kv => ¬ (kv.2 < fb.nBlockStart ∨ kv.2 > fb.GetBlockEnd)))
      payment.nProposalHash = false) :
    ((fb.IsTransactionValid tx h).2.mapPayment_History
        = alEmplace (fb.mapPayment_History.filter
            (fun kv => ¬ (kv.2 < fb.nBlockStart ∨ kv.2 > fb.GetBlockEnd)))
          payment.nProposalHash h) ∧
    ((fb.IsTransactionValid tx h).1 ≠ TrxValidationStatus.DoublePayment) ∧
    ((fb.IsTransactionValid tx h).1 = TrxValidationStatus.Valid ↔
      ∃ out ∈ tx.vout, payment.payee = out.scriptPubKey ∧
        payment.nAmount = out.nValue) ∧
    (payment2.nProposalHash = payment.nProposalHash →
      (((fb.IsTransactionValid tx h).2).IsTransactionValid tx2 h2).1
        = TrxValidationStatus.DoublePayment) ∧
    ((fb.mapPayment_History.map (·.1)).Pairwise (· < ·) →
      ((fb.IsTransactionValid tx h).2.mapPayment_History.map (·.1)).Pairwise (· < ·) ∧
      ((fb.IsTransactionValid tx h).2.mapPayment_History.map (·.1)).Nodup) := by
  have hlen : (h - fb.nBlockStart).toNat < fb.vecBudgetPayments.length := by
    obtain ⟨hlt, -⟩ := List.get?_eq_some.mp hp
    exact hlt
  have hend : fb.GetBlockEnd = fb.nBlockStart + (fb.vecBudgetPayments.length : Int) - 1 :=
    rfl
  have hub : ¬ h > fb.GetBlockEnd := by omega
  have hlb : ¬ h < fb.nBlockStart := by omega
  have hsz : ¬ (h - fb.nBlockStart) > (fb.vecBudgetPayments.length : Int) - 1 := by
    omega
  have hrw := fbITV_inrange fb tx h hub hlb hsz payment hp
  have hpaid : fb.IsPaidAlready payment.nProposalHash h =
      (false, alEmplace (fb.mapPayment_History.filter
          (fun kv => ¬ (kv.2 < fb.nBlockStart ∨ kv.2 > fb.GetBlockEnd)))
        payment.nProposalHash h) := by
    rw [CFinalizedBudget.IsPaidAlready]
    simp only [hnotpaid, Bool.false_eq_true, if_false]
  rw [hpaid] at hrw
  rw [hrw]
  simp only [Bool.false_eq_true, if_false]
  set pruned := fb.mapPayment_History.filter
    (fun kv => ¬ (kv.2 < fb.nBlockStart ∨ kv.2 > fb.GetBlockEnd)) with hpruned
  set hist1 := alEmplace pruned payment.nProposalHash h with hhist1
  constructor
  · split_ifs
    · rfl
    · rfl
  constructor
  · split_ifs
    · simp
    · simp
  constructor
  · constructor
    · intro hval
      split_ifs at hval with hany
      obtain ⟨out, hout, hcond⟩ := List.any_eq_true.mp hany
      rw [Bool.and_eq_true] at hcond
      exact ⟨out, List.mem_reverse.mp hout,
        beq_iff_eq.mp hcond.1, beq_iff_eq.mp hcond.2⟩
    · rintro ⟨out, hout, hsc, hamt⟩
      have hany : tx.vout.reverse.any (fun out => payment.payee == out.scriptPubKey
          && payment.nAmount == out.nValue) = true := by
        refine List.any_eq_true.mpr ⟨out, List.mem_reverse.mpr hout, ?_⟩
        rw [Bool.and_eq_true]
        exact ⟨beq_iff_eq.mpr hsc, beq_iff_eq.mpr hamt⟩
      rw [if_pos hany]
  constructor
  · intro hsame
    have hfb2 : ((if tx.vout.reverse.any (fun out => payment.payee == out.scriptPubKey
          && payment.nAmount == out.nValue) then
        (TrxValidationStatus.Valid, { fb with mapPayment_History := hist1 })
      else (TrxValidationStatus.InValid, { fb with mapPayment_History := hist1 })) :
        TrxValidationStatus × CFinalizedBudget).2
        = { fb with mapPayment_History := hist1 } := by
      split_ifs
      · rfl
      · rfl
    rw [hfb2]
    set fb' : CFinalizedBudget := { fb with mapPayment_History := hist1 } with hfb'
    have hlen2 : (h2 - fb.nBlockStart).toNat < fb.vecBudgetPayments.length := by
      obtain ⟨hlt, -⟩ := List.get?_eq_some.mp hp2
      exact hlt
    have hub2 : ¬ h2 > fb'.GetBlockEnd := by
      show ¬ h2 > fb.GetBlockEnd
      omega
    have hlb2 : ¬ h2 < fb'.nBlockStart := by
      show ¬ h2 < fb.nBlockStart
      omega
    have hsz2 : ¬ (h2 - fb'.nBlockStart) > (fb'.vecBudgetPayments.length : Int) - 1 := by
      show ¬ (h2 - fb.nBlockStart) > (fb.vecBudgetPayments.length : Int) - 1
      omega
    have hp2x : fb'.vecBudgetPayments.get? (h2 - fb'.nBlockStart).toNat = some payment2 :=
      hp2
    have hrw2 := fbITV_inrange fb' tx2 h2 hub2 hlb2 hsz2 payment2 hp2x
    have hmem : (payment.nProposalHash, h) ∈ hist1 :=
      mem_alEmplace_of_not_count pruned payment.nProposalHash h hnotpaid
    have hkeep : (payment.nProposalHash, h) ∈ fb'.mapPayment_History.filter
        (fun kv => ¬ (kv.2 < fb'.nBlockStart ∨ kv.2 > fb'.GetBlockEnd)) := by
      refine List.mem_filter.mpr ⟨hmem, ?_⟩
      have hprop : ¬ ((h : Int) < fb.nBlockStart ∨ h > fb.GetBlockEnd) := by omega
      exact decide_eq_true hprop
    have hcount : alCount (fb'.mapPayment_History.filter
        (fun kv => ¬ (kv.2 < fb'.nBlockStart ∨ kv.2 > fb'.GetBlockEnd)))
        payment2.nProposalHash = true := by
      rw [hsame]
      exact alCount_true_of_mem _ _ _ hkeep
    have hpaid2 : fb'.IsPaidAlready payment2.nProposalHash h2 =
        (true, fb'.mapPayment_History.filter
          (fun kv => ¬ (kv.2 < fb'.nBlockStart ∨ kv.2 > fb'.GetBlockEnd))) := by
      rw [CFinalizedBudget.IsPaidAlready]
      simp only [hcount, if_true]
    rw [hrw2]
    simp only [hpaid2, if_true]
  · intro hpw
    have hpw1 : (hist1.map (·.1)).Pairwise (· < ·) :=
      alEmplace_pairwise pruned payment.nProposalHash h
        (filter_pairwise_keys fb.mapPayment_History _ hpw)
    have hfb2 : ((if tx.vout.reverse.any (fun out => payment.payee == out.scriptPubKey
          && payment.nAmount == out.nValue) then
        (TrxValidationStatus.Valid, { fb with mapPayment_History := hist1 })
      else (TrxValidationStatus.InValid, { fb with mapPayment_History := hist1 })) :
        TrxValidationStatus × CFinalizedBudget).2
        = { fb with mapPayment_History := hist1 } := by
      split_ifs
      · rfl
      · rfl
    rw [hfb2]
    exact ⟨hpw1, hpw1.imp (fun hlt => Nat.ne_of_lt hlt)⟩

/-- Concrete finalized budget and transaction fixtures for the C4
witness: two scheduled payments for the same proposal hash in one
cycle. -/
def fbC4W : CFinalizedBudget :=
  { fAutoChecked := false, fValid := true, strBudgetName := "main", nBlockStart := 20,
    vecBudgetPayments := [⟨101, .normalPayment 9, 7⟩, ⟨101, .normalPayment 9, 7⟩],
    nFeeTXHash := 40, nTime := 0, hash := 91, mapVotes := [], mapPayment_History := [] }

def txC4W : CTransaction := { vout := [⟨.normalPayment 9, 7⟩], nLockTime := 0 }

/-- Witness for C4: a concrete first payment validates, and a second
in-cycle payment of the same proposal is rejected as a double payment. -/
theorem C4_payment_history_witness :
    (fbC4W.IsTransactionValid txC4W 20).1 = TrxValidationStatus.Valid ∧
    (((fbC4W.IsTransactionValid txC4W 20).2).IsTransactionValid txC4W 21).1
      = TrxValidationStatus.DoublePayment := by
  have h := C4_payment_history fbC4W txC4W txC4W 20 21 (by decide) (by decide)
    (by decide) (by decide) ⟨101, .normalPayment 9, 7⟩ ⟨101, .normalPayment 9, 7⟩
    (by rfl) (by rfl) (by rfl)
  exact ⟨h.2.2.1.mpr ⟨⟨.normalPayment 9, 7⟩, by decide, rfl, rfl⟩, h.2.2.2.1 rfl⟩

/-! C7 helpers. -/

theorem checkAndRemoveBudgetsLoop_keys (ext : Extern) (fMN act : Bool)
    (gates : Nat → Bool) (mode : String) (nBest : Int)
    (props : List (Nat × CBudgetProposal)) (l : List (Nat × CFinalizedBudget)) (i : Nat) :
    (checkAndRemoveBudgetsLoop ext fMN act gates mode nBest props l i).1.map (·.1)
      = (l.filter (fun kv => (kv.2.UpdateValid ext nBest true).2)).map (·.1) := by
  induction l generalizing i with
  | nil => rfl
  | cons kv rest ih =>
    rcases kv with ⟨k, fb⟩
    rw [checkAndRemoveBudgetsLoop]
    by_cases hu : (fb.UpdateValid ext nBest true).2
    · rw [if_neg (by simp [hu])]
      simp only [List.filter_cons, hu, if_true, List.map_cons]
      rw [ih]
    · have hu' : (fb.UpdateValid ext nBest true).2 = false := by
        revert hu
        cases (fb.UpdateValid ext nBest true).2
        · intro _
          rfl
        · intro hc
          exact absurd rfl hc
      rw [if_pos (by simp [hu'])]
      simp only [List.filter_cons, hu', Bool.false_eq_true, if_false]
      exact ih (i + 1)

theorem finalized_update_valid_iff (ext : Extern) (fb : CFinalizedBudget) (h : Int) :
    (CFinalizedBudget.UpdateValid ext fb h true).2 = true ↔
      (fb.strBudgetName ≠ "" ∧
       cppMod fb.nBlockStart ext.nBudgetCycleBlocks = 0 ∧
       fb.nBlockStart ≠ 0 ∧
       (fb.vecBudgetPayments.length : Int) ≤ 100 ∧
       fb.nFeeTXHash ≠ 0 ∧
       fb.GetTotalPayout ≤ GetTotalBudget ext fb.nBlockStart ∧
       (IsBudgetCollateralValidE ext fb.nFeeTXHash fb.hash fb.nTime 0 true).ok = true ∧
       ¬ (fb.GetBlockEnd < (h - cppMod h ext.nBudgetCycleBlocks + ext.nBudgetCycleBlocks)
            - 2 * ext.nBudgetCycleBlocks)) := by
  rw [CFinalizedBudget.UpdateValid]
  dsimp only [CFinalizedBudget.GetBlockEnd, CFinalizedBudget.GetTotalPayout]
  simp only [eq_self_iff_true, if_true]
  by_cases h1 : cppMod fb.nBlockStart ext.nBudgetCycleBlocks ≠ 0
  · rw [if_pos h1]
    constructor
    · intro hx
      exact absurd hx (by simp)
    · rintro ⟨-, hc, -⟩
      exact absurd hc h1
  · rw [if_neg h1]
    by_cases h2 : fb.nBlockStart + (fb.vecBudgetPayments.length : Int) - 1
        - fb.nBlockStart > 100
    · rw [if_pos h2]
      constructor
      · intro hx
        exact absurd hx (by simp)
      · rintro ⟨-, -, -, c4, -⟩
        exact absurd c4 (by omega)
    · rw [if_neg h2]
      by_cases h3 : (fb.vecBudgetPayments.length : Int) > 100
      · rw [if_pos h3]
        constructor
        · intro hx
          exact absurd hx (by simp)
        · rintro ⟨-, -, -, c4, -⟩
          exact absurd c4 (by omega)
      · rw [if_neg h3]
        by_cases h4 : fb.strBudgetName = ""
        · rw [if_pos h4]
          constructor
          · intro hx
            exact absurd hx (by simp)
          · rintro ⟨c1, -⟩
            exact absurd h4 c1
        · rw [if_neg h4]
          by_cases h5 : fb.nBlockStart = 0
          · rw [if_pos h5]
            constructor
            · intro hx
              exact absurd hx (by simp)
            · rintro ⟨-, -, c3, -⟩
              exact absurd h5 c3
          · rw [if_neg h5]
            by_cases h6 : fb.nFeeTXHash = 0
            · rw [if_pos h6]
              constructor
              · intro hx
                exact absurd hx (by simp)
              · rintro ⟨-, -, -, -, c5, -⟩
                exact absurd h6 c5
            · rw [if_neg h6]
              by_cases h7 : (fb.vecBudgetPayments.map (fun x => x.nAmount)).sum
                  > GetTotalBudget ext fb.nBlockStart
              · rw [if_pos h7]
                constructor
                · intro hx
                  exact absurd hx (by simp)
                · rintro ⟨-, -, -, -, -, c6, -⟩
                  have c6x : (fb.vecBudgetPayments.map (fun x => x.nAmount)).sum
                      ≤ GetTotalBudget ext fb.nBlockStart := c6
                  exact absurd c6x (not_le.mpr h7)
              · rw [if_neg h7]
                by_cases h8 : (IsBudgetCollateralValidE ext fb.nFeeTXHash fb.hash
                    fb.nTime 0 true).ok = true
                · rw [if_neg (by simp [h8])]
                  by_cases h9 : fb.nBlockStart + (fb.vecBudgetPayments.length : Int) - 1
                      < h - cppMod h ext.nBudgetCycleBlocks + ext.nBudgetCycleBlocks
                        - 2 * ext.nBudgetCycleBlocks
                  · rw [if_pos h9]
                    constructor
                    · intro hx
                      exact absurd hx (by simp)
                    · rintro ⟨-, -, -, -, -, -, -, c8⟩
                      have c8x : ¬ (fb.nBlockStart + (fb.vecBudgetPayments.length : Int)
                          - 1 < h - cppMod h ext.nBudgetCycleBlocks
                            + ext.nBudgetCycleBlocks - 2 * ext.nBudgetCycleBlocks) := c8
                      exact absurd h9 c8x
                  · rw [if_neg h9]
                    constructor
                    · intro _
                      refine ⟨h4, not_not.mp h1, h5, by omega, h6, not_lt.mp h7, h8, h9⟩
                    · intro _
                      rfl
                · rw [if_pos (by simp [h8])]
                  constructor
                  · intro hx
                    exact absurd hx (by simp)
                  · rintro ⟨-, -, -, -, -, -, c7, -⟩
                    exact absurd c7 h8

/-- C7 (amended): a finalized budget is marked valid iff its name is
non-empty, its start block is a non-zero multiple of the cycle length,
it has at most 100 payments, its fee-transaction hash is non-null, its
total payout fits the cycle budget, its collateral is valid for the
budget hash as a finalization collateral, and it is not obsolete —
where obsolescence compares `block_end` against
`(h - h mod C + C) - 2*C`, two cycles before the NEXT cycle start;
budgets failing this check are dropped by `CheckAndRemove`. -/
theorem C7_finalized_update_valid (ext : Extern) (fb : CFinalizedBudget) (h : Int)
    (st : CBudgetManager) (fMN act : Bool) (gates : Nat → Bool) (mode : String) :
    ((CFinalizedBudget.UpdateValid ext fb h true).2 = true ↔
      (fb.strBudgetName ≠ "" ∧
       cppMod fb.nBlockStart ext.nBudgetCycleBlocks = 0 ∧
       fb.nBlockStart ≠ 0 ∧
       (fb.vecBudgetPayments.length : Int) ≤ 100 ∧
       fb.nFeeTXHash ≠ 0 ∧
       fb.GetTotalPayout ≤ GetTotalBudget ext fb.nBlockStart ∧
       (IsBudgetCollateralValidE ext fb.nFeeTXHash fb.hash fb.nTime 0 true).ok = true ∧
       ¬ (fb.GetBlockEnd < (h - cppMod h ext.nBudgetCycleBlocks + ext.nBudgetCycleBlocks)
            - 2 * ext.nBudgetCycleBlocks))) ∧
    ((st.CheckAndRemove ext fMN act gates mode).1.mapFinalizedBudgets.map (·.1)
      = (st.mapFinalizedBudgets.filter
          (fun kv => (kv.2.UpdateValid ext st.nBestHeight true).2)).map (·.1)) := by
  refine ⟨finalized_update_valid_iff ext fb h, ?_⟩
  rw [CBudgetManager.CheckAndRemove]
  exact checkAndRemoveBudgetsLoop_keys ext fMN act gates mode st.nBestHeight
    st.mapProposals st.mapFinalizedBudgets 0

/-- Chain fixtures for the C7 counterexample and witness. -/
def lFin40W : TxLookup :=
  { tx := { vout := [⟨.opReturnPush 91, BUDGET_FEE_TX⟩], nLockTime := 0 }
    blockOnChain := some (5, 777) }

def lFin0W : TxLookup :=
  { tx := { vout := [⟨.opReturnPush 92, BUDGET_FEE_TX⟩], nLockTime := 0 }
    blockOnChain := some (5, 777) }

def extC7W : Extern :=
  { nBudgetCycleBlocks := 10
    nProposalEstablishmentTime := 10
    nBudgetFeeConfirmations := 1
    mnCountEnabled := 20
    timeNow := 1000
    adjustedTimeNow := 1000
    tipHeight := 10
    findTx := fun txid => if txid = 40 then some lFin40W
      else if txid = 0 then some lFin0W else none
    ixConfs := fun _ => 0
    mnExists := fun _ => true
    isTestnet := true
    posActive := fun _ => false
    zcV2Active := fun _ => false
    blockValue := fun _ => 1000
    hashFB := fun _ _ => 77 }

/-- A finalized budget whose last payment lies between two and one
cycles before the next cycle start: valid per the claim wording,
obsolete per the code. -/
def fbObsW : CFinalizedBudget :=
  { fAutoChecked := false, fValid := true, strBudgetName := "main", nBlockStart := 20,
    vecBudgetPayments := List.replicate 5 ⟨1, .normalPayment 2, 0⟩,
    nFeeTXHash := 40, nTime := 0, hash := 91, mapVotes := [], mapPayment_History := [] }

/-- A finalized budget with a null fee-transaction hash whose collateral
the chain (pathologically) validates: valid per the claim wording,
rejected by the code's null-hash check. -/
def fbNullFeeW : CFinalizedBudget :=
  { fAutoChecked := false, fValid := true, strBudgetName := "main", nBlockStart := 20,
    vecBudgetPayments := [⟨1, .normalPayment 2, 0⟩],
    nFeeTXHash := 0, nTime := 0, hash := 92, mapVotes := [], mapPayment_History := [] }

/-- Counterexample to C7 as stated: two concrete budgets satisfy every
condition the claim lists (with obsolescence measured from the current
cycle start) yet `UpdateValid` rejects both — one because the code
measures obsolescence from the NEXT cycle start, one because of the
unlisted null-fee-hash check. -/
theorem C7_counterexample :
    claimFinalBudgetValid extC7W fbObsW 45 = true ∧
    (CFinalizedBudget.UpdateValid extC7W fbObsW 45 true).2 = false ∧
    claimFinalBudgetValid extC7W fbNullFeeW 25 = true ∧
    (CFinalizedBudget.UpdateValid extC7W fbNullFeeW 25 true).2 = false := by
  refine ⟨?_, ?_, ?_, ?_⟩
  · rfl
  · rfl
  · rfl
  · rfl

/-- A well-formed finalized budget accepted by `UpdateValid`. -/
def fbGoodW : CFinalizedBudget :=
  { fAutoChecked := false, fValid := true, strBudgetName := "main", nBlockStart := 50,
    vecBudgetPayments := [⟨1, .normalPayment 2, 0⟩],
    nFeeTXHash := 40, nTime := 0, hash := 91, mapVotes := [], mapPayment_History := [] }

/-- Witness for C7: the amended characterization applied at a concrete
valid budget. -/
theorem C7_finalized_update_valid_witness :
    (CFinalizedBudget.UpdateValid extC7W fbGoodW 45 true).2 = true :=
  (C7_finalized_update_valid extC7W fbGoodW 45 stEmptyW false false (fun _ => false)
    "").1.mpr (by
      refine ⟨by decide, by rfl, by decide, by decide, by decide, by decide, by rfl,
        by decide⟩)

/-! C1 helpers: characterizing the band-scanning loop. -/

theorem itvLoop_ne_dp (tx : CTransaction) (h thr : Int)
    (l : List (Nat × CFinalizedBudget)) (ft : Bool) :
    itvLoop tx h thr l ft ≠ TrxValidationStatus.DoublePayment := by
  induction l generalizing ft with
  | nil =>
    rw [itvLoop]
    split_ifs
    · intro hc
      cases hc
    · intro hc
      cases hc
  | cons kv rest ih =>
    rw [itvLoop]
    split_ifs with h1 h2
    · intro hc
      cases hc
    · exact ih true
    · exact ih ft

theorem itvLoop_valid_iff (tx : CTransaction) (h thr : Int)
    (l : List (Nat × CFinalizedBudget)) (ft : Bool) :
    (itvLoop tx h thr l ft = TrxValidationStatus.Valid ↔
      ∃ kv ∈ l, kv.2.GetVoteCount > thr ∧
        (kv.2.IsTransactionValid tx h).1 = TrxValidationStatus.Valid) := by
  induction l generalizing ft with
  | nil =>
    rw [itvLoop]
    split_ifs
    · simp
    · simp
  | cons kv rest ih =>
    rw [itvLoop]
    split_ifs with h1 h2
    · simp only [List.mem_cons, true_iff]
      exact ⟨kv, Or.inl rfl, h1, h2⟩
    · rw [ih]
      constructor
      · rintro ⟨kv', hkv', hc⟩
        exact ⟨kv', List.mem_cons_of_mem _ hkv', hc⟩
      · rintro ⟨kv', hkv', hc⟩
        rcases List.mem_cons.mp hkv' with hkv' | hkv'
        · subst hkv'
          exact absurd hc.2 h2
        · exact ⟨kv', hkv', hc⟩
    · rw [ih]
      constructor
      · rintro ⟨kv', hkv', hc⟩
        exact ⟨kv', List.mem_cons_of_mem _ hkv', hc⟩
      · rintro ⟨kv', hkv', hc⟩
        rcases List.mem_cons.mp hkv' with hkv' | hkv'
        · subst hkv'
          exact absurd hc.1 h1
        · exact ⟨kv', hkv', hc⟩

theorem itvLoop_votethr_iff (tx : CTransaction) (h thr : Int)
    (l : List (Nat × CFinalizedBudget)) (ft : Bool) :
    (itvLoop tx h thr l ft = TrxValidationStatus.VoteThreshold ↔
      (ft = false ∧ ∀ kv ∈ l, ¬ (kv.2.GetVoteCount > thr))) := by
  induction l generalizing ft with
  | nil =>
    rw [itvLoop]
    split_ifs with h1
    · subst h1
      simp
    · simp [Bool.eq_false_iff.mpr h1]
  | cons kv rest ih =>
    rw [itvLoop]
    split_ifs with h1 h2
    · constructor
      · intro hc
        cases hc
      · rintro ⟨-, hall⟩
        exact absurd h1 (hall kv (List.mem_cons_self _ _))
    · rw [ih]
      constructor
      · rintro ⟨hc, -⟩
        cases hc
      · rintro ⟨-, hall⟩
        exact absurd h1 (hall kv (List.mem_cons_self _ _))
    · rw [ih]
      constructor
      · rintro ⟨hft, hall⟩
        refine ⟨hft, ?_⟩
        intro kv' hkv'
        rcases List.mem_cons.mp hkv' with hkv' | hkv'
        · subst hkv'
          exact h1
        · exact hall kv' hkv'
      · rintro ⟨hft, hall⟩
        exact ⟨hft, fun kv' hkv' => hall kv' (List.mem_cons_of_mem _ hkv')⟩

/-- C1: block-transaction validation returns `InValid` on non-payment
blocks; on payment blocks it returns `Valid` iff some finalized budget
above the band threshold `V* - 2*five_percent` validates the
transaction, `VoteThreshold` iff no budget reaches the band, and
`InValid` iff some budget reaches the band but none validates. -/
theorem C1_is_transaction_valid (ext : Extern) (st : CBudgetManager)
    (tx : CTransaction) (h : Int) :
    (CBudgetManager.IsBudgetPaymentBlock ext st h = false →
      CBudgetManager.IsTransactionValid ext st tx h = TrxValidationStatus.InValid) ∧
    (CBudgetManager.IsBudgetPaymentBlock ext st h = true →
      ((CBudgetManager.IsTransactionValid ext st tx h = TrxValidationStatus.Valid ↔
         ∃ kv ∈ st.mapFinalizedBudgets,
           kv.2.GetVoteCount > st.GetHighestVoteCount h
             - 2 * cppDiv (ext.mnCountEnabled : Int) 20 ∧
           (kv.2.IsTransactionValid tx h).1 = TrxValidationStatus.Valid) ∧
       (CBudgetManager.IsTransactionValid ext st tx h
          = TrxValidationStatus.VoteThreshold ↔
         ∀ kv ∈ st.mapFinalizedBudgets,
           ¬ (kv.2.GetVoteCount > st.GetHighestVoteCount h
             - 2 * cppDiv (ext.mnCountEnabled : Int) 20)) ∧
       (CBudgetManager.IsTransactionValid ext st tx h = TrxValidationStatus.InValid ↔
         ((∃ kv ∈ st.mapFinalizedBudgets,
            kv.2.GetVoteCount > st.GetHighestVoteCount h
              - 2 * cppDiv (ext.mnCountEnabled : Int) 20) ∧
          ¬ ∃ kv ∈ st.mapFinalizedBudgets,
            kv.2.GetVoteCount > st.GetHighestVoteCount h
              - 2 * cppDiv (ext.mnCountEnabled : Int) 20 ∧
            (kv.2.IsTransactionValid tx h).1 = TrxValidationStatus.Valid)))) := by
  constructor
  · intro hF
    rw [CBudgetManager.IsTransactionValid]
    rw [if_pos (by
      intro hc
      rw [CBudgetManager.IsBudgetPaymentBlock] at hF
      rw [hF] at hc
      cases hc)]
  · intro hT
    have hloop : CBudgetManager.IsTransactionValid ext st tx h
        = itvLoop tx h (st.GetHighestVoteCount h
            - 2 * cppDiv (ext.mnCountEnabled : Int) 20) st.mapFinalizedBudgets false := by
      rw [CBudgetManager.IsTransactionValid]
      rw [if_neg (by
        rw [CBudgetManager.IsBudgetPaymentBlock] at hT
        intro hc
        rw [hT] at hc
        exact hc rfl)]
      rfl
    rw [hloop]
    have hV := itvLoop_valid_iff tx h (st.GetHighestVoteCount h
      - 2 * cppDiv (ext.mnCountEnabled : Int) 20) st.mapFinalizedBudgets false
    have hW := itvLoop_votethr_iff tx h (st.GetHighestVoteCount h
      - 2 * cppDiv (ext.mnCountEnabled : Int) 20) st.mapFinalizedBudgets false
    have hD := itvLoop_ne_dp tx h (st.GetHighestVoteCount h
      - 2 * cppDiv (ext.mnCountEnabled : Int) 20) st.mapFinalizedBudgets false
    refine ⟨hV, ?_, ?_⟩
    · rw [hW]
      simp only [true_and]
    · constructor
      · intro hInv
        constructor
        · by_contra hnone
          have hall : ∀ kv ∈ st.mapFinalizedBudgets,
              ¬ (kv.2.GetVoteCount > st.GetHighestVoteCount h
                - 2 * cppDiv (ext.mnCountEnabled : Int) 20) := by
            intro kv hkv hc
            exact hnone ⟨kv, hkv, hc⟩
          have := hW.mpr ⟨rfl, hall⟩
          rw [hInv] at this
          cases this
        · intro hex
          have := hV.mpr hex
          rw [hInv] at this
          cases this
      · rintro ⟨hband, hnoval⟩
        rcases hR : itvLoop tx h (st.GetHighestVoteCount h
            - 2 * cppDiv (ext.mnCountEnabled : Int) 20) st.mapFinalizedBudgets false with
          - | - | - | -
        · rfl
        · exact absurd (hV.mp hR) hnoval
        · exact absurd hR hD
        · obtain ⟨-, hall⟩ := hW.mp hR
          obtain ⟨kv, hkv, hc⟩ := hband
          exact absurd hc (hall kv hkv)

/-- Fixtures for the C1 witness (two finalized budgets in the band,
the lower-voted one matching the transaction). -/
def fbXW : CFinalizedBudget :=
  { fAutoChecked := false, fValid := true, strBudgetName := "main", nBlockStart := 20,
    vecBudgetPayments := [⟨1, .normalPayment 3, 5⟩, ⟨2, .normalPayment 3, 5⟩],
    nFeeTXHash := 40, nTime := 0, hash := 91,
    mapVotes := [(1, ⟨1, 91, 500, true, false⟩), (2, ⟨2, 91, 500, true, false⟩),
      (3, ⟨3, 91, 500, true, false⟩)],
    mapPayment_History := [] }

def fbYW : CFinalizedBudget :=
  { fAutoChecked := false, fValid := true, strBudgetName := "main", nBlockStart := 20,
    vecBudgetPayments := [⟨1, .normalPayment 4, 6⟩, ⟨2, .normalPayment 4, 6⟩],
    nFeeTXHash := 41, nTime := 0, hash := 92,
    mapVotes := [(1, ⟨1, 92, 500, true, false⟩), (2, ⟨2, 92, 500, true, false⟩)],
    mapPayment_History := [] }

def stC1W : CBudgetManager :=
  { mapProposals := [], mapSeenProposals := [],
    mapFinalizedBudgets := [(91, fbXW), (92, fbYW)], mapSeenFinalizedBudgets := [],
    vecImmatureProposals := [], vecImmatureFinalizedBudgets := [],
    mapCollateralTxids := [], nBestHeight := 20, nSubmittedHeight := 0 }

def txC1W : CTransaction := { vout := [⟨.normalPayment 4, 6⟩], nLockTime := 0 }

/-- Witness for C1: with a 3-vote leader and a 2-vote budget both in the
band, a transaction matching the 2-vote budget validates. -/
theorem C1_is_transaction_valid_witness :
    CBudgetManager.IsTransactionValid extC7W stC1W txC1W 21 = TrxValidationStatus.Valid :=
  ((C1_is_transaction_valid extC7W stC1W txC1W 21).2 (by decide)).1.mpr
    ⟨(92, fbYW), by decide, by decide, by decide⟩

/-- Fixtures for the C6 counterexample: a single covering finalized
budget with one vote while five percent of masternodes is one, so the
height is not a payment block, yet a payment is produced. -/
def fbC6W : CFinalizedBudget :=
  { fAutoChecked := false, fValid := true, strBudgetName := "main", nBlockStart := 2,
    vecBudgetPayments := [⟨1, .normalPayment 9, 7 * COIN⟩],
    nFeeTXHash := 40, nTime := 0, hash := 93,
    mapVotes := [(3, ⟨3, 93, 500, true, false⟩)], mapPayment_History := [] }

def stC6W : CBudgetManager :=
  { mapProposals := [], mapSeenProposals := [],
    mapFinalizedBudgets := [(93, fbC6W)], mapSeenFinalizedBudgets := [],
    vecImmatureProposals := [], vecImmatureFinalizedBudgets := [],
    mapCollateralTxids := [], nBestHeight := 1, nSubmittedHeight := 0 }

def txEmptyW : CMutableTransaction := { vout := [] }

/-- Counterexample to C6 as stated: height 2 is not a payment block
(the single covering budget has one vote, not more than five percent of
the 20 enabled masternodes), yet `FillBlockPayee` appends a budget
payment instead of leaving the transaction unchanged. -/
theorem C6_counterexample :
    CBudgetManager.IsBudgetPaymentBlock extC7W stC6W 2 = false ∧
    CBudgetManager.FillBlockPayee extC7W stC6W txEmptyW true ≠ txEmptyW := by
  refine ⟨rfl, ?_⟩
  decide

/-- C6 (amended): `FillBlockPayee` leaves the transaction unchanged when
the best height is non-positive or no covering finalized budget with a
positive vote count yields a payment for the next height; otherwise it
appends the payment for proof of stake, and for proof of work it sets
output 0's value to the block value and makes the payment the second
and last output. -/
theorem C6_fill_block_payee (ext : Extern) (st : CBudgetManager)
    (txNew : CMutableTransaction) (fPoS : Bool) :
    (st.nBestHeight ≤ 0 → CBudgetManager.FillBlockPayee ext st txNew fPoS = txNew) ∧
    (st.GetPayeeAndAmount (st.nBestHeight + 1) = none →
      CBudgetManager.FillBlockPayee ext st txNew fPoS = txNew) ∧
    (∀ payee nAmount, 0 < st.nBestHeight →
      st.GetPayeeAndAmount (st.nBestHeight + 1) = some (payee, nAmount) →
      ((fPoS = true → (CBudgetManager.FillBlockPayee ext st txNew fPoS).vout
          = txNew.vout ++ [⟨payee, nAmount⟩]) ∧
       (fPoS = false → (CBudgetManager.FillBlockPayee ext st txNew fPoS).vout
          = (resizeVout (match txNew.vout with
              | [] => []
              | o :: rest =>
                { o with nValue := ext.blockValue (st.nBestHeight + 1) } :: rest) 2).set 1
            ⟨payee, nAmount⟩))) := by
  refine ⟨?_, ?_, ?_⟩
  · intro hle
    rw [CBudgetManager.FillBlockPayee, if_pos hle]
  · intro hnone
    rw [CBudgetManager.FillBlockPayee]
    by_cases hle : st.nBestHeight ≤ 0
    · rw [if_pos hle]
    · rw [if_neg hle, hnone]
  · intro payee nAmount hpos hsome
    constructor
    · intro hf
      subst hf
      rw [CBudgetManager.FillBlockPayee, if_neg (by omega), hsome]
      rfl
    · intro hf
      subst hf
      rw [CBudgetManager.FillBlockPayee, if_neg (by omega), hsome]
      rfl

/-- Witness for C6: the amended description applied at the concrete
state of the counterexample (proof-of-stake append). -/
theorem C6_fill_block_payee_witness :
    (CBudgetManager.FillBlockPayee extC7W stC6W txEmptyW true).vout
      = txEmptyW.vout ++ [⟨.normalPayment 9, 7 * COIN⟩] :=
  ((C6_fill_block_payee extC7W stC6W txEmptyW true).2.2 (.normalPayment 9) (7 * COIN)
    (by decide) (by rfl)).1 rfl

/-- Fixture for C8: a valid finalized budget under periodic maintenance
with a masternode whose probabilistic gate always fires. -/
def stC8W : CBudgetManager :=
  { mapProposals := [], mapSeenProposals := [],
    mapFinalizedBudgets := [(91, fbGoodW)], mapSeenFinalizedBudgets := [],
    vecImmatureProposals := [], vecImmatureFinalizedBudgets := [],
    mapCollateralTxids := [], nBestHeight := 45, nSubmittedHeight := 0 }

/-- C8 failing input, evaluated: the first maintenance tick runs the
auto-check body on budget 91 and latches `fAutoChecked`, but the map
rebuild runs the copy constructor, which resets the latch to false; a
second tick therefore runs the auto-check body on the same budget
again, contradicting the one-shot latch the code's own comment intends. -/
theorem C8_auto_check_reruns :
    (stC8W.CheckAndRemove extC7W true true (fun _ => true) "").2 = [91] ∧
    ((alGet? (stC8W.CheckAndRemove extC7W true true (fun _ => true) "").1.mapFinalizedBudgets
        91).map (fun fb => fb.fAutoChecked)) = some false ∧
    (((stC8W.CheckAndRemove extC7W true true (fun _ => true) "").1).CheckAndRemove
        extC7W true true (fun _ => true) "").2 = [91] := by
  refine ⟨rfl, rfl, rfl⟩

/-! C9 helpers: the identity hash is untouched by revalidation, and the
seen-superset invariant is preserved by the individual operations. -/

theorem proposal_updateValid_hash (ext : Extern) (p : CBudgetProposal) (h : Int)
    (c : Bool) : (p.UpdateValid ext h c).1.hash = p.hash := by
  rw [CBudgetProposal.UpdateValid]
  dsimp only
  split_ifs
  all_goals rfl

set_option maxHeartbeats 1000000 in
theorem finalized_updateValid_hash (ext : Extern) (fb : CFinalizedBudget) (h : Int)
    (c : Bool) : (fb.UpdateValid ext h c).1.hash = fb.hash := by
  rw [CFinalizedBudget.UpdateValid]
  dsimp only
  set fb0 : CFinalizedBudget := { fb with fValid := false } with hfb0
  by_cases h1 : cppMod fb.nBlockStart ext.nBudgetCycleBlocks ≠ 0
  · rw [if_pos h1]
  · rw [if_neg h1]
    by_cases h2 : fb0.GetBlockEnd - fb.nBlockStart > 100
    · rw [if_pos h2]
    · rw [if_neg h2]
      by_cases h3 : (fb.vecBudgetPayments.length : Int) > 100
      · rw [if_pos h3]
      · rw [if_neg h3]
        by_cases h4 : fb.strBudgetName = ""
        · rw [if_pos h4]
        · rw [if_neg h4]
          by_cases h5 : fb.nBlockStart = 0
          · rw [if_pos h5]
          · rw [if_neg h5]
            by_cases h6 : fb.nFeeTXHash = 0
            · rw [if_pos h6]
            · rw [if_neg h6]
              by_cases h7 : fb0.GetTotalPayout > GetTotalBudget ext fb.nBlockStart
              · rw [if_pos h7]
              · rw [if_neg h7]
                split_ifs
                all_goals cases c
                all_goals rfl

theorem seenSupersetInv_unfold (st : CBudgetManager) :
    seenSupersetInv st = true ↔
      ((∀ kv ∈ st.mapProposals, alCount st.mapSeenProposals kv.1 = true) ∧
       (∀ kv ∈ st.mapFinalizedBudgets, alCount st.mapSeenFinalizedBudgets kv.1 = true)) := by
  rw [seenSupersetInv, Bool.and_eq_true, List.all_eq_true, List.all_eq_true]

theorem inv_AddSeenProposal (st : CBudgetManager) (p : CBudgetProposal)
    (hinv : seenSupersetInv st = true) :
    seenSupersetInv (st.AddSeenProposal p) = true := by
  rw [seenSupersetInv_unfold] at hinv ⊢
  refine ⟨?_, hinv.2⟩
  intro kv hkv
  exact alCount_alEmplace_mono _ _ _ _ (hinv.1 kv hkv)

theorem inv_AddSeenFinalizedBudget (st : CBudgetManager) (fb : CFinalizedBudget)
    (hinv : seenSupersetInv st = true) :
    seenSupersetInv (st.AddSeenFinalizedBudget fb) = true := by
  rw [seenSupersetInv_unfold] at hinv ⊢
  refine ⟨hinv.1, ?_⟩
  intro kv hkv
  exact alCount_alEmplace_mono _ _ _ _ (hinv.2 kv hkv)

theorem inv_AddProposal (ext : Extern) (st : CBudgetManager) (p : CBudgetProposal)
    (hseen : alCount st.mapSeenProposals p.hash = true)
    (hinv : seenSupersetInv st = true) :
    seenSupersetInv (st.AddProposal ext p).1 = true := by
  rw [CBudgetManager.AddProposal]
  split_ifs with h1 h2
  all_goals try exact hinv
  rw [seenSupersetInv_unfold] at hinv ⊢
  refine ⟨?_, hinv.2⟩
  intro kv hkv
  have hk : kv.1 ∈ (alEmplace st.mapProposals
      (p.UpdateValid ext st.nBestHeight true).1.hash
      (p.UpdateValid ext st.nBestHeight true).1).map (·.1) :=
    List.mem_map_of_mem (·.1) hkv
  rcases mem_keys_alEmplace _ _ _ _ hk with hk | hk
  · rw [hk, proposal_updateValid_hash]
    exact hseen
  · obtain ⟨kv0, hkv0, hkeq⟩ := List.mem_map.mp hk
    rw [← hkeq]
    exact hinv.1 kv0 hkv0

theorem inv_AddFinalizedBudget (ext : Extern) (st : CBudgetManager)
    (fb : CFinalizedBudget)
    (hseen : alCount st.mapSeenFinalizedBudgets fb.hash = true)
    (hinv : seenSupersetInv st = true) :
    seenSupersetInv (st.AddFinalizedBudget ext fb).1 = true := by
  rw [CBudgetManager.AddFinalizedBudget]
  split_ifs with h1
  · exact hinv
  · dsimp only
    split_ifs with h2
    all_goals try exact hinv
    rw [seenSupersetInv_unfold] at hinv ⊢
    refine ⟨hinv.1, ?_⟩
    intro kv hkv
    have hk : kv.1 ∈ (alEmplace st.mapFinalizedBudgets
        (fb.UpdateValid ext st.nBestHeight true).1.hash
        (fb.UpdateValid ext st.nBestHeight true).1.copyConstruct).map (·.1) :=
      List.mem_map_of_mem (·.1) hkv
    rcases mem_keys_alEmplace _ _ _ _ hk with hk | hk
    · rw [hk, finalized_updateValid_hash]
      exact hseen
    · obtain ⟨kv0, hkv0, hkeq⟩ := List.mem_map.mp hk
      rw [← hkeq]
      exact hinv.2 kv0 hkv0

theorem inv_ProcessMessageBudgetProposal (ext : Extern) (st : CBudgetManager)
    (p : CBudgetProposal) (hinv : seenSupersetInv st = true) :
    seenSupersetInv (st.ProcessMessageBudgetProposal ext p) = true := by
  rw [CBudgetManager.ProcessMessageBudgetProposal]
  try dsimp only
  split_ifs
  all_goals try exact hinv
  all_goals try exact inv_AddSeenProposal st _ hinv
  refine inv_AddProposal ext _ _ ?_ (inv_AddSeenProposal st _ hinv)
  rw [proposal_updateValid_hash]
  exact alCount_alEmplace_self _ _ _

theorem inv_ProcessMessageFinalizedBudget (ext : Extern) (st : CBudgetManager)
    (fb : CFinalizedBudget) (hinv : seenSupersetInv st = true) :
    seenSupersetInv (st.ProcessMessageFinalizedBudget ext fb) = true := by
  rw [CBudgetManager.ProcessMessageFinalizedBudget]
  try dsimp only
  split_ifs
  all_goals try exact hinv
  all_goals try exact inv_AddSeenFinalizedBudget st _ hinv
  refine inv_AddFinalizedBudget ext _ _ ?_ (inv_AddSeenFinalizedBudget st _ hinv)
  rw [finalized_updateValid_hash]
  exact alCount_alEmplace_self _ _ _

theorem inv_submitFinalBudgetTail (ext : Extern) (st : CBudgetManager) (txid : Nat)
    (hc hs : Int) (vp : List CTxBudgetPayment) (bh : Nat)
    (hinv : seenSupersetInv st = true) :
    seenSupersetInv (submitFinalBudgetTail ext st txid hc hs vp bh) = true := by
  rw [submitFinalBudgetTail]
  try dsimp only
  split_ifs
  all_goals try exact hinv
  refine inv_AddFinalizedBudget ext _ _ ?_ (inv_AddSeenFinalizedBudget st _ hinv)
  exact alCount_alEmplace_self _ _ _

theorem inv_SubmitFinalBudget (ext : Extern) (st : CBudgetManager)
    (walletTx : Option Nat) (hinv : seenSupersetInv st = true) :
    seenSupersetInv (st.SubmitFinalBudget ext walletTx) = true := by
  cases walletTx with
  | none =>
    rw [CBudgetManager.SubmitFinalBudget]
    try dsimp only
    split_ifs
    all_goals try exact hinv
    all_goals exact inv_submitFinalBudgetTail ext _ _ _ _ _ _ hinv
  | some txid =>
    rw [CBudgetManager.SubmitFinalBudget]
    try dsimp only
    split_ifs
    all_goals try exact hinv
    all_goals exact inv_submitFinalBudgetTail ext _ _ _ _ _ _ hinv

theorem checkAndRemoveProposalsLoop_keys_sub (ext : Extern) (nBest : Int)
    (l : List (Nat × CBudgetProposal)) (kv : Nat × CBudgetProposal)
    (h : kv ∈ checkAndRemoveProposalsLoop ext nBest l) :
    kv.1 ∈ l.map (·.1) := by
  induction l with
  | nil => simp [checkAndRemoveProposalsLoop] at h
  | cons a rest ih =>
    rcases a with ⟨k, q⟩
    rw [checkAndRemoveProposalsLoop] at h
    by_cases hu : ¬ (q.UpdateValid ext nBest true).2 = true
    · rw [if_pos hu] at h
      simp only [List.map_cons]
      exact List.mem_cons_of_mem _ (ih h)
    · rw [if_neg hu] at h
      simp only [List.map_cons]
      rcases List.mem_cons.mp h with h | h
      · rw [h]
        exact List.mem_cons_self _ _
      · exact List.mem_cons_of_mem _ (ih h)

theorem inv_CheckAndRemove (ext : Extern) (st : CBudgetManager) (fMN act : Bool)
    (gates : Nat → Bool) (mode : String) (hinv : seenSupersetInv st = true) :
    seenSupersetInv (st.CheckAndRemove ext fMN act gates mode).1 = true := by
  rw [CBudgetManager.CheckAndRemove]
  rw [seenSupersetInv_unfold] at hinv ⊢
  dsimp only
  constructor
  · intro kv hkv
    have hsub := checkAndRemoveProposalsLoop_keys_sub ext st.nBestHeight
      st.mapProposals kv hkv
    obtain ⟨kv0, hkv0, hkeq⟩ := List.mem_map.mp hsub
    rw [← hkeq]
    exact hinv.1 kv0 hkv0
  · intro kv hkv
    have hk : kv.1 ∈ ((checkAndRemoveBudgetsLoop ext fMN act gates mode st.nBestHeight
        st.mapProposals st.mapFinalizedBudgets 0).1).map (·.1) :=
      List.mem_map_of_mem (·.1) hkv
    rw [checkAndRemoveBudgetsLoop_keys] at hk
    obtain ⟨kv0, hkv0, hkeq⟩ := List.mem_map.mp hk
    have hmem := List.mem_of_mem_filter hkv0
    rw [← hkeq]
    exact hinv.2 kv0 hmem

/-- A proposal for the C9 run: well-formed for cycle length 10
(one payment cycle: end = start + 11), collateral txid 60, hash 81. -/
def propC9W : CBudgetProposal :=
  { nAlloted := 0, fValid := true, nBlockStart := 20, nBlockEnd := 31,
    address := .normalPayment 3, nAmount := 10 * COIN, nTime := 0,
    nFeeTXHash := 60, hash := 81, mapVotes := [] }

/-- Chain lookup for the proposal collateral txid 60: a correct
commitment output, mined at height 20 (block time 500). -/
def lProp60W : TxLookup :=
  { tx := { vout := [⟨CScript.opReturnPush 81, PROPOSAL_FEE_TX⟩], nLockTime := 0 }
    blockOnChain := some (20, 500) }

/-- Environment while the collateral is one block deep: six
confirmations required, chain tip at the collateral block. -/
def extC9aW : Extern :=
  { nBudgetCycleBlocks := 10, nProposalEstablishmentTime := 10,
    nBudgetFeeConfirmations := 6, mnCountEnabled := 20, timeNow := 1000,
    adjustedTimeNow := 1000, tipHeight := 20,
    findTx := fun txid => if txid = 60 then some lProp60W else none,
    ixConfs := fun _ => 0, mnExists := fun _ => true, isTestnet := true,
    posActive := fun _ => false, zcV2Active := fun _ => false,
    blockValue := fun _ => 1000, hashFB := fun _ _ => 77 }

/-- The same environment after the chain has advanced to height 40:
the collateral now has 21 confirmations. -/
def extC9bW : Extern :=
  { extC9aW with tipHeight := 40 }

/-- C9 : in every reachable state of the budget manager, the
seen-proposal map's key set is a superset of the active proposal map's
key set, and likewise for finalized budgets; the invariant is preserved
by peer ingestion of a proposal, peer ingestion of a finalized budget,
local final-budget submission, and the periodic maintenance pass. -/
theorem C9_seen_superset (ext : Extern) (st : CBudgetManager)
    (p : CBudgetProposal) (fb : CFinalizedBudget) (walletTx : Option Nat)
    (fMN act : Bool) (gates : Nat → Bool) (mode : String)
    (hinv : seenSupersetInv st = true) :
    seenSupersetInv (st.ProcessMessageBudgetProposal ext p) = true ∧
    seenSupersetInv (st.ProcessMessageFinalizedBudget ext fb) = true ∧
    seenSupersetInv (st.SubmitFinalBudget ext walletTx) = true ∧
    seenSupersetInv (st.CheckAndRemove ext fMN act gates mode).1 = true :=
  ⟨inv_ProcessMessageBudgetProposal ext st p hinv,
   inv_ProcessMessageFinalizedBudget ext st fb hinv,
   inv_SubmitFinalBudget ext st walletTx hinv,
   inv_CheckAndRemove ext st fMN act gates mode hinv⟩

/-- Witness for C9: the preservation theorem applied at the empty state
and a successful peer ingestion of `propC9W`. -/
theorem C9_seen_superset_witness :
    seenSupersetInv stEmptyW = true ∧
    seenSupersetInv (stEmptyW.ProcessMessageBudgetProposal extC9bW propC9W) = true :=
  ⟨rfl, (C9_seen_superset extC9bW stEmptyW propC9W fbObsW none false false
      (fun _ => false) "" rfl).1⟩

/-- C9 counterexample: ingesting `propC9W` while its collateral is
immature parks it (the invariant still holds), but the next
`NewBlock` maintenance pass at height 28 promotes it into the active
proposal map without any seen-set insertion, breaking the invariant. -/
theorem C9_counterexample :
    seenSupersetInv (stEmptyW.ProcessMessageBudgetProposal extC9aW propC9W) = true ∧
    alCount ((CBudgetManager.NewBlock extC9bW
        (stEmptyW.ProcessMessageBudgetProposal extC9aW propC9W) 28
        true "" false false none false false (fun _ => false)).1.mapProposals) 81 = true ∧
    seenSupersetInv (CBudgetManager.NewBlock extC9bW
        (stEmptyW.ProcessMessageBudgetProposal extC9aW propC9W) 28
        true "" false false none false false (fun _ => false)).1 = false :=
  ⟨rfl, rfl, rfl⟩

/-! C2 helpers: the sort comparator is a strict total order compatible
with `sortWith`, the selection loop agrees with the claim-side loop on
the selected list, selected proposals are passing with full allotment,
the greedy allocation respects the cycle budget, and non-passing
proposals pass through the walk untouched. -/

theorem ptrHigherYes_asym (a b : CBudgetProposal)
    (h : CBudgetProposal.PtrHigherYes a b = true) :
    CBudgetProposal.PtrHigherYes b a = false := by
  rw [CBudgetProposal.PtrHigherYes] at h ⊢
  try dsimp only at h ⊢
  set na := a.GetYeas - a.GetNays with hna
  set nb := b.GetYeas - b.GetNays with hnb
  set fa := a.nFeeTXHash with hfa
  set fc := b.nFeeTXHash with hfc
  split_ifs at h ⊢ with e1 e2
  all_goals simp only [decide_eq_true_eq] at h
  all_goals simp only [decide_eq_false_iff_not]
  all_goals omega

theorem ptrHigherYes_trans (p q x : CBudgetProposal)
    (h1 : CBudgetProposal.PtrHigherYes p q = true)
    (h2 : CBudgetProposal.PtrHigherYes x q = false) :
    CBudgetProposal.PtrHigherYes x p = false := by
  rw [CBudgetProposal.PtrHigherYes] at h1 h2 ⊢
  try dsimp only at h1 h2 ⊢
  set np := p.GetYeas - p.GetNays with hnp
  set nq := q.GetYeas - q.GetNays with hnq
  set nx := x.GetYeas - x.GetNays with hnx
  set fp := p.nFeeTXHash with hfp
  set fq := q.nFeeTXHash with hfq
  set fx := x.nFeeTXHash with hfx
  split_ifs at h1 h2 ⊢ with e1 e2 e3
  all_goals simp only [decide_eq_true_eq] at h1
  all_goals simp only [decide_eq_false_iff_not] at h2
  all_goals simp only [decide_eq_false_iff_not]
  all_goals omega

theorem getBudgetLoop_sel_eq_claim (ext : Extern) (S E : Int) (T : CAmount) (mn : Nat)
    (l : List CBudgetProposal) (a : CAmount) :
    (getBudgetLoop ext S E T mn l a).1 = (claimGetBudgetLoop ext S E T mn l a).1 := by
  induction l generalizing a with
  | nil => rfl
  | cons p rest ih =>
    rw [getBudgetLoop, claimGetBudgetLoop]
    by_cases hp : p.IsPassing ext S E mn = true
    · by_cases hf : p.nAmount + a ≤ T
      · rw [if_pos hp, if_pos hf, if_pos (by simp [hp, hf])]
        dsimp only
        rw [ih]
      · rw [if_pos hp, if_neg hf, if_neg (by simp [hp, hf])]
        dsimp only
        exact ih a
    · have hp0 : p.IsPassing ext S E mn = false := by
        revert hp
        cases p.IsPassing ext S E mn
        · intro _
          rfl
        · intro hc
          exact absurd rfl hc
      rw [if_neg hp, if_neg (by simp [hp0])]
      dsimp only
      exact ih a

theorem getBudgetLoop_sel_passing (ext : Extern) (S E : Int) (T : CAmount) (mn : Nat)
    (l : List CBudgetProposal) :
    ∀ a, ∀ p ∈ (getBudgetLoop ext S E T mn l a).1,
      p.IsPassing ext S E mn = true ∧ p.nAlloted = p.nAmount := by
  induction l with
  | nil =>
    intro a p hp
    simp [getBudgetLoop] at hp
  | cons q rest ih =>
    intro a p hp
    rw [getBudgetLoop] at hp
    by_cases hq : q.IsPassing ext S E mn = true
    · by_cases hf : q.nAmount + a ≤ T
      · rw [if_pos hq, if_pos hf] at hp
        dsimp only at hp
        rcases List.mem_cons.mp hp with h | h
        · subst h
          exact ⟨hq, rfl⟩
        · exact ih _ p h
      · rw [if_pos hq, if_neg hf] at hp
        dsimp only at hp
        exact ih _ p hp
    · rw [if_neg hq] at hp
      dsimp only at hp
      exact ih _ p hp

theorem getBudgetLoop_sum_bound (ext : Extern) (S E : Int) (T : CAmount) (mn : Nat)
    (l : List CBudgetProposal) :
    ∀ a, (getBudgetLoop ext S E T mn l a).1 = [] ∨
      ((getBudgetLoop ext S E T mn l a).1.map (fun p => p.nAmount)).sum + a ≤ T := by
  induction l with
  | nil =>
    intro a
    exact Or.inl rfl
  | cons q rest ih =>
    intro a
    rw [getBudgetLoop]
    by_cases hq : q.IsPassing ext S E mn = true
    · by_cases hf : q.nAmount + a ≤ T
      · rw [if_pos hq, if_pos hf]
        dsimp only
        right
        have hqa : ({ q with nAlloted := q.nAmount } : CBudgetProposal).nAmount
            = q.nAmount := rfl
        rcases ih (a + q.nAmount) with h | h
        · rw [h]
          simp only [List.map_cons, List.map_nil, List.sum_cons, List.sum_nil, hqa]
          linarith
        · simp only [List.map_cons, List.sum_cons, hqa]
          linarith
      · rw [if_pos hq, if_neg hf]
        dsimp only
        exact ih a
    · rw [if_neg hq]
      dsimp only
      exact ih a

theorem getBudgetLoop_post_nonpassing (ext : Extern) (S E : Int) (T : CAmount)
    (mn : Nat) (l : List CBudgetProposal) :
    ∀ a, ∀ q ∈ (getBudgetLoop ext S E T mn l a).2,
      q.IsPassing ext S E mn = false → q ∈ l := by
  induction l with
  | nil =>
    intro a q hq
    simp [getBudgetLoop] at hq
  | cons p rest ih =>
    intro a q hq hnp
    rw [getBudgetLoop] at hq
    by_cases hp : p.IsPassing ext S E mn = true
    · by_cases hf : p.nAmount + a ≤ T
      · rw [if_pos hp, if_pos hf] at hq
        dsimp only at hq
        rcases List.mem_cons.mp hq with h | h
        · subst h
          have hpi : CBudgetProposal.IsPassing ext
              { p with nAlloted := p.nAmount } S E mn = true := hp
          rw [hpi] at hnp
          exact Bool.noConfusion hnp
        · exact List.mem_cons_of_mem _ (ih _ q h hnp)
      · rw [if_pos hp, if_neg hf] at hq
        dsimp only at hq
        rcases List.mem_cons.mp hq with h | h
        · subst h
          have hpi : CBudgetProposal.IsPassing ext
              { p with nAlloted := 0 } S E mn = true := hp
          rw [hpi] at hnp
          exact Bool.noConfusion hnp
        · exact List.mem_cons_of_mem _ (ih _ q h hnp)
    · rw [if_neg hp] at hq
      dsimp only at hq
      rcases List.mem_cons.mp hq with h | h
      · subst h
        exact List.mem_cons_self _ _
      · exact List.mem_cons_of_mem _ (ih _ q h hnp)

theorem getBudgetLoop_post_overbudget (ext : Extern) (S E : Int) (T : CAmount)
    (mn : Nat) (l : List CBudgetProposal) :
    ∀ a, ∀ q ∈ (getBudgetLoop ext S E T mn l a).2,
      q.IsPassing ext S E mn = true →
      q ∉ (getBudgetLoop ext S E T mn l a).1 → q.nAlloted = 0 := by
  induction l with
  | nil =>
    intro a q hq
    simp [getBudgetLoop] at hq
  | cons p rest ih =>
    intro a q hq hpass hnotsel
    rw [getBudgetLoop] at hq hnotsel
    by_cases hp : p.IsPassing ext S E mn = true
    · by_cases hf : p.nAmount + a ≤ T
      · rw [if_pos hp, if_pos hf] at hq hnotsel
        dsimp only at hq hnotsel
        rcases List.mem_cons.mp hq with h | h
        · exact absurd (by rw [h]; exact List.mem_cons_self _ _) hnotsel
        · exact ih _ q h hpass (fun hc => hnotsel (List.mem_cons_of_mem _ hc))
      · rw [if_pos hp, if_neg hf] at hq hnotsel
        dsimp only at hq hnotsel
        rcases List.mem_cons.mp hq with h | h
        · subst h
          rfl
        · exact ih _ q h hpass hnotsel
    · rw [if_neg hp] at hq hnotsel
      dsimp only at hq hnotsel
      rcases List.mem_cons.mp hq with h | h
      · subst h
        exact absurd hpass hp
      · exact ih _ q h hpass hnotsel

theorem GetTotalBudget_nonneg (ext : Extern) (nHeight : Int) :
    0 ≤ GetTotalBudget ext nHeight := by
  have key : ∀ s : Int, 0 ≤ s → 0 ≤ cppDiv s 100 * 10 * 1440 * 30 := by
    intro s hs
    have h1 : 0 ≤ cppDiv s 100 := Int.tdiv_nonneg hs (by decide)
    have h2 : 0 ≤ cppDiv s 100 * 10 := by linarith
    have h3 : 0 ≤ cppDiv s 100 * 10 * 1440 := by linarith
    linarith
  rw [GetTotalBudget]
  try dsimp only
  by_cases ht : ext.isTestnet = true
  · rw [if_pos ht]
    decide
  · rw [if_neg ht]
    by_cases h17 : nHeight ≤ 172800
    · rw [if_pos h17]
      decide
    · rw [if_neg h17]
      refine key _ ?_
      by_cases e1 : nHeight ≥ 151200 ∧ ¬ext.posActive nHeight = true
      · rw [if_pos e1]
        decide
      · rw [if_neg e1]
        by_cases e2 : ext.posActive nHeight = true ∧ nHeight ≤ 302399
        · rw [if_pos e2]
          decide
        · rw [if_neg e2]
          by_cases e3 : nHeight ≤ 345599 ∧ nHeight ≥ 302400
          · rw [if_pos e3]
            decide
          · rw [if_neg e3]
            by_cases e4 : nHeight ≤ 388799 ∧ nHeight ≥ 345600
            · rw [if_pos e4]
              decide
            · rw [if_neg e4]
              by_cases e5 : nHeight ≤ 431999 ∧ nHeight ≥ 388800
              · rw [if_pos e5]
                decide
              · rw [if_neg e5]
                by_cases e6 : nHeight ≤ 475199 ∧ nHeight ≥ 432000
                · rw [if_pos e6]
                  decide
                · rw [if_neg e6]
                  by_cases e7 : nHeight ≤ 518399 ∧ nHeight ≥ 475200
                  · rw [if_pos e7]
                    decide
                  · rw [if_neg e7]
                    by_cases e8 : nHeight ≤ 561599 ∧ nHeight ≥ 518400
                    · rw [if_pos e8]
                      decide
                    · rw [if_neg e8]
                      by_cases e9 : nHeight ≤ 604799 ∧ nHeight ≥ 561600
                      · rw [if_pos e9]
                        decide
                      · rw [if_neg e9]
                        by_cases e10 : nHeight ≤ 647999 ∧ nHeight ≥ 604800
                        · rw [if_pos e10]
                          decide
                        · rw [if_neg e10]
                          by_cases e11 : ext.zcV2Active nHeight = true
                          · rw [if_pos e11]
                            decide
                          · rw [if_neg e11]
                            decide

/-- Environment for the C2 runs: cycle length 10, twenty enabled
masternodes (net-yes margin 2), testnet cycle budget. -/
def extC2W : Extern :=
  { nBudgetCycleBlocks := 10, nProposalEstablishmentTime := 10,
    nBudgetFeeConfirmations := 1, mnCountEnabled := 20, timeNow := 1000,
    adjustedTimeNow := 1000, tipHeight := 20,
    findTx := fun _ => none, ixConfs := fun _ => 0, mnExists := fun _ => true,
    isTestnet := true, posActive := fun _ => false, zcV2Active := fun _ => false,
    blockValue := fun _ => 1000, hashFB := fun _ _ => 77 }

/-- A non-passing proposal (no votes) carrying a stale allotted amount. -/
def pNonPassW : CBudgetProposal :=
  { nAlloted := 5, fValid := true, nBlockStart := 10, nBlockEnd := 21,
    address := .normalPayment 3, nAmount := 10 * COIN, nTime := 0,
    nFeeTXHash := 60, hash := 81, mapVotes := [] }

/-- A passing proposal: three valid yes votes, established, covering
the next cycle after height 1. -/
def pPassW : CBudgetProposal :=
  { nAlloted := 0, fValid := true, nBlockStart := 10, nBlockEnd := 21,
    address := .normalPayment 3, nAmount := 10 * COIN, nTime := 0,
    nFeeTXHash := 60, hash := 81,
    mapVotes := [(1, ⟨1, 81, .voteYes, 0, true, false⟩),
                 (2, ⟨2, 81, .voteYes, 0, true, false⟩),
                 (3, ⟨3, 81, .voteYes, 0, true, false⟩)] }

/-- C2 : for every height h > 0, `GetBudget` walks the active proposals
(votes re-validated) in the `PtrHigherYes` sort order (descending net
yes, greater fee hash on ties), selects exactly the proposals the
claim-side greedy selects, every selected proposal is passing for the
next cycle with its allotted amount set to its full amount, and the sum
of the selected amounts never exceeds the cycle budget; a passing
proposal that no longer fits is left in the walk with its allotted
amount zeroed; but a proposal skipped because it is not passing keeps
its previous allotted amount (it is not zeroed). -/
theorem C2_get_budget (ext : Extern) (nHeight : Int)
    (m : List (Nat × CBudgetProposal)) (h : 0 < nHeight) :
    (GetBudgetCore ext nHeight m).1 = (claimGetBudget ext nHeight m).1 ∧
    (sortWith CBudgetProposal.PtrHigherYes
        (m.map (fun kv => kv.2.CleanAndRemove ext.mnExists))).Pairwise
      (fun a b => CBudgetProposal.PtrHigherYes b a = false) ∧
    (∀ p ∈ (GetBudgetCore ext nHeight m).1,
      p.IsPassing ext
          (nHeight - cppMod nHeight ext.nBudgetCycleBlocks + ext.nBudgetCycleBlocks)
          (nHeight - cppMod nHeight ext.nBudgetCycleBlocks + ext.nBudgetCycleBlocks
            + ext.nBudgetCycleBlocks - 1) ext.mnCountEnabled = true ∧
        p.nAlloted = p.nAmount) ∧
    ((GetBudgetCore ext nHeight m).1.map (fun p => p.nAmount)).sum
      ≤ GetTotalBudget ext
          (nHeight - cppMod nHeight ext.nBudgetCycleBlocks + ext.nBudgetCycleBlocks) ∧
    (∀ q ∈ (GetBudgetCore ext nHeight m).2,
      q.IsPassing ext
          (nHeight - cppMod nHeight ext.nBudgetCycleBlocks + ext.nBudgetCycleBlocks)
          (nHeight - cppMod nHeight ext.nBudgetCycleBlocks + ext.nBudgetCycleBlocks
            + ext.nBudgetCycleBlocks - 1) ext.mnCountEnabled = false →
      q ∈ m.map (fun kv => kv.2.CleanAndRemove ext.mnExists)) ∧
    (∀ q ∈ (GetBudgetCore ext nHeight m).2,
      q.IsPassing ext
          (nHeight - cppMod nHeight ext.nBudgetCycleBlocks + ext.nBudgetCycleBlocks)
          (nHeight - cppMod nHeight ext.nBudgetCycleBlocks + ext.nBudgetCycleBlocks
            + ext.nBudgetCycleBlocks - 1) ext.mnCountEnabled = true →
      q ∉ (GetBudgetCore ext nHeight m).1 → q.nAlloted = 0) := by
  have hns : ¬ nHeight ≤ 0 := not_le.mpr h
  refine ⟨?_, ?_, ?_, ?_, ?_, ?_⟩
  · rw [GetBudgetCore, claimGetBudget, if_neg hns, if_neg hns]
    try dsimp only
    exact getBudgetLoop_sel_eq_claim ext _ _ _ _ _ 0
  · exact sortWith_pairwise CBudgetProposal.PtrHigherYes ptrHigherYes_asym
      ptrHigherYes_trans _
  · rw [GetBudgetCore, if_neg hns]
    try dsimp only
    exact getBudgetLoop_sel_passing ext _ _ _ _ _ 0
  · rw [GetBudgetCore, if_neg hns]
    try dsimp only
    rcases getBudgetLoop_sum_bound ext
        (nHeight - cppMod nHeight ext.nBudgetCycleBlocks + ext.nBudgetCycleBlocks)
        (nHeight - cppMod nHeight ext.nBudgetCycleBlocks + ext.nBudgetCycleBlocks
          + ext.nBudgetCycleBlocks - 1)
        (GetTotalBudget ext
          (nHeight - cppMod nHeight ext.nBudgetCycleBlocks + ext.nBudgetCycleBlocks))
        ext.mnCountEnabled
        (sortWith CBudgetProposal.PtrHigherYes
          (m.map (fun kv => kv.2.CleanAndRemove ext.mnExists))) 0 with h0 | h0
    · rw [h0]
      simpa using GetTotalBudget_nonneg ext
        (nHeight - cppMod nHeight ext.nBudgetCycleBlocks + ext.nBudgetCycleBlocks)
    · linarith
  · rw [GetBudgetCore, if_neg hns]
    try dsimp only
    intro q hq hnp
    exact (mem_sortWith _ q _).mp
      (getBudgetLoop_post_nonpassing ext _ _ _ _ _ 0 q hq hnp)
  · rw [GetBudgetCore, if_neg hns]
    try dsimp only
    intro q hq hpass hnotsel
    exact getBudgetLoop_post_overbudget ext _ _ _ _ _ 0 q hq hpass hnotsel

/-- Witness for C2: the amended theorem applied at height 1 with one
passing proposal. -/
theorem C2_get_budget_witness :
    (0:Int) < 1 ∧
    (GetBudgetCore extC2W 1 [(81, pPassW)]).1
      = (claimGetBudget extC2W 1 [(81, pPassW)]).1 :=
  ⟨by decide, (C2_get_budget extC2W 1 [(81, pPassW)] (by decide)).1⟩

/-- C2 counterexample: a non-passing proposal keeps its stale allotted
amount (5) through the `GetBudget` walk, while the claim zeroes every
skipped proposal. -/
theorem C2_counterexample :
    (GetBudgetCore extC2W 1 [(81, pNonPassW)]).1 = [] ∧
    (GetBudgetCore extC2W 1 [(81, pNonPassW)]).2.map (fun p => p.nAlloted) = [5] ∧
    (claimGetBudget extC2W 1 [(81, pNonPassW)]).2.map (fun p => p.nAlloted) = [0] :=
  ⟨rfl, rfl, rfl⟩
